import Mathlib

/-!
Verification of the ASEQ LR1 spectrometer driver (aseq_datastructures.py and
aseq_spectrometer.py): a shallow embedding of the calibration codec, the frame
reassembler, the flash access layer and the capture sequencing, together with
theorems settling the specification claims about them.

Modelling conventions:
* byte strings are represented as List Nat (one entry per byte value);
* numeric text values are represented as rationals: decimal text parsing and
  formatting is exact over the rationals, which models the spec's contract
  that numeric content, not byte-identical text, is what round-trips;
* Python exceptions are represented by Except with explicit error
  constructors named after the error taxonomy of the spec (ValidationError,
  DeviceError, DroppedPacketError, FormatError, TransportError);
* Python list slice assignment buf[a:b] = xs is modelled by take/append/drop,
  matching Python semantics for 0 <= a <= b (the only shapes that occur);
* the USB transport is modelled by passing in the list of reply packets a
  device would deliver, in arrival order; an empty stream when a packet is
  expected models a receive timeout (OSError in the source).
-/

set_option autoImplicit false

namespace Aseq

/-- Constant from aseq_datastructures.py: fixed USB packet size in bytes. -/
def PACKET_SIZE_BYTES : ℕ := 64

/-- Constant from aseq_datastructures.py: maximum packets in one frame. -/
def MAX_PACKETS_IN_FRAME : ℕ := 124

/-- Constant from aseq_datastructures.py: a remaining-packets value at or
above this signals a device-side error. -/
def REMAINING_PACKETS_ERROR : ℕ := 250

/-- Constant from aseq_datastructures.py: pixels carried per frame packet. -/
def NUM_OF_PIXELS_IN_PACKET : ℕ := 30

/-- Constant from aseq_datastructures.py: maximum packets per read_flash
request. -/
def FLASH_MAX_READ_PACKETS : ℕ := 100

/-- Constant from aseq_datastructures.py: maximum payload bytes per
write_flash request. -/
def FLASH_MAX_WRITE_BYTES : ℕ := 58

/-- Constant from aseq_datastructures.py: maximum valid flash offset. -/
def FLASH_MAX_OFFSET : ℤ := 0x1FFFF

/-- Constant from aseq_datastructures.py: size of the flash address space. -/
def FLASH_MAX_BYTES : ℤ := 0x20000

/-- Constant from aseq_datastructures.py: required line count of the decoded
calibration text. -/
def CALIBRATION_LINES : ℕ := 10975

/-- Error taxonomy.  Each constructor corresponds to one raise site (or
error kind) in the source; the names follow the spec's taxonomy. -/
inductive LRError
  /-- ValueError raised by LR1._check_flash_parameters (out-of-range flash
  offset or length) and by the too-many-packets check of get_raw_frame. -/
  | validationError
  /-- ValueError raised when a reply's remaining-packets field is at or
  above REMAINING_PACKETS_ERROR. -/
  | deviceError
  /-- OSError raised when a reply's remaining-packets field does not match
  the expected countdown. -/
  | droppedPacket
  /-- OSError raised by the transport when a reply never arrives. -/
  | transportError
  deriving DecidableEq, Repr

/-- Error taxonomy for the calibration codec (Calibration.from_bytes). -/
inductive CalError
  /-- ValueError raised when the decoded text does not have exactly
  CALIBRATION_LINES lines. -/
  | formatError
  /-- ValueError raised when int() or float() fails on a field. -/
  | valueError
  /-- IndexError raised when the header line has fewer than three fields. -/
  | indexError
  deriving DecidableEq, Repr

/-! ### Decimal text: parsing and formatting over the rationals -/

/-- True when a byte is an ASCII decimal digit. -/
def isDigitByte (b : ℕ) : Bool := 48 ≤ b && b ≤ 57

/-- Strip one optional leading ASCII sign; returns (isNegative, rest). -/
def splitSign (l : List ℕ) : Bool × List ℕ :=
  match l with
  | 45 :: r => (true, r)
  | 43 :: r => (false, r)
  | _ => (false, l)

/-- Numeric value of a list of ASCII digit bytes (most significant first). -/
def digitsToNat (ds : List ℕ) : ℕ :=
  ds.foldl (fun a b => a * 10 + (b - 48)) 0

/-- Parse an optional decimal exponent suffix (e or E, optional sign,
digits); the whole input must be consumed.  Models the exponent part of
Python float(). -/
def parseExp (l : List ℕ) : Option ℤ :=
  match l with
  | [] => some 0
  | 101 :: r =>
      let sr := splitSign r
      let ds := sr.2.takeWhile isDigitByte
      let rest := sr.2.dropWhile isDigitByte
      if ds = [] ∨ rest ≠ [] then none
      else some (cond sr.1 (-(digitsToNat ds : ℤ)) (digitsToNat ds))
  | 69 :: r =>
      let sr := splitSign r
      let ds := sr.2.takeWhile isDigitByte
      let rest := sr.2.dropWhile isDigitByte
      if ds = [] ∨ rest ≠ [] then none
      else some (cond sr.1 (-(digitsToNat ds : ℤ)) (digitsToNat ds))
  | _ => none

/-- Parse a decimal literal (optional sign, digits, optional fraction,
optional exponent) as an exact rational.  Models Python float() on the
decimal literals that occur in calibration data; the empty string parses to
none, which models the ValueError float() raises on it. -/
def parseFloat (l : List ℕ) : Option ℚ :=
  let s := splitSign l
  let ip := s.2.takeWhile isDigitByte
  let r2 := s.2.dropWhile isDigitByte
  match r2 with
  | 46 :: rest =>
      let fp := rest.takeWhile isDigitByte
      let r3 := rest.dropWhile isDigitByte
      if ip = [] ∧ fp = [] then none
      else
        (parseExp r3).map fun e =>
          (cond s.1 (-1) 1) *
            ((digitsToNat ip : ℚ) + (digitsToNat fp : ℚ) / (10 : ℚ) ^ fp.length) *
            (10 : ℚ) ^ e
  | _ =>
      if ip = [] then none
      else
        (parseExp r2).map fun e =>
          (cond s.1 (-1) 1) * (digitsToNat ip : ℚ) * (10 : ℚ) ^ e

/-- Parse an optionally signed decimal integer; models Python int(). -/
def parseInt (l : List ℕ) : Option ℤ :=
  let s := splitSign l
  let ds := s.2.takeWhile isDigitByte
  let rest := s.2.dropWhile isDigitByte
  if ds = [] ∨ rest ≠ [] then none
  else some (cond s.1 (-(digitsToNat ds : ℤ)) (digitsToNat ds))

/-- Parse every line of a list as a float; fails when any line fails.
Models np.asarray(lines).astype(float). -/
def parseFloats : List (List ℕ) → Option (List ℚ)
  | [] => some []
  | l :: rest =>
      match parseFloat l, parseFloats rest with
      | some q, some qs => some (q :: qs)
      | _, _ => none

/-- ASCII digits of a natural number, most significant first. -/
def natDigits (n : ℕ) : List ℕ :=
  if h : n < 10 then [48 + n]
  else natDigits (n / 10) ++ [48 + n % 10]
  decreasing_by exact Nat.div_lt_self (by omega) (by omega)

/-- Format a natural number m as a fixed-point decimal with k fractional
digits, where m counts units of 10^(-k). -/
def fmtFixedNat (k m : ℕ) : List ℕ :=
  natDigits (m / 10 ^ k) ++ [46] ++
    (List.replicate (k - (natDigits (m % 10 ^ k)).length) 48 ++ natDigits (m % 10 ^ k))

/-- Format a rational with k fractional digits, rounding half away from
zero; models printf fixed-point formatting closely enough for the claims,
none of which depend on the rounding of ties. -/
def fmtFixed (k : ℕ) (q : ℚ) : List ℕ :=
  let n : ℤ := ⌊|q| * (10 : ℚ) ^ k + 1 / 2⌋
  (cond (decide (q < 0)) [45] []) ++ fmtFixedNat k n.toNat

/-- Model of the f-string format spec .6f used by Calibration.to_bytes. -/
def fmtFix6 (q : ℚ) : List ℕ := fmtFixed 6 q

/-- Model of the f-string format spec .6e used by Calibration.to_bytes.  The
mantissa is not normalised to one leading digit (doing so is a textual
matter only); the denoted numeric value, which is what the claims are about,
is exact for six-fractional-digit inputs, and the output for the value 1 is
byte-identical to Python's. -/
def fmtSci6 (q : ℚ) : List ℕ := fmtFixed 6 q ++ [101, 43, 48, 48]

/-- Model of str() applied to a numpy float, as used by astype(str) in
Calibration.to_bytes: integral values print with a single trailing zero
fractional digit, others with their (up to 17) fractional digits. -/
def fmtStr (q : ℚ) : List ℕ :=
  if q.den = 1 then
    (cond (decide (q < 0)) [45] []) ++ natDigits q.num.natAbs ++ [46, 48]
  else fmtFixed 17 q

/-- Decimal text of a Python int, as interpolated by an f-string. -/
def fmtInt (z : ℤ) : List ℕ :=
  (cond (decide (z < 0)) [45] []) ++ natDigits z.natAbs

/-! ### Calibration codec (aseq_datastructures.py) -/

/-- Whitespace split of a header line, modelling str.split() with no
arguments: split on spaces, discarding empty fields.  Tabs were already
removed by from_bytes before this point. -/
def splitWs (l : List ℕ) : List (List ℕ) :=
  (l.splitOn 32).filter (fun f => f ≠ [])

/-- Strip trailing 0xFF filler bytes, modelling the pop loop at the start of
Calibration.from_bytes. -/
def stripTrailingFF (raw : List ℕ) : List ℕ :=
  (raw.reverse.dropWhile (fun b => b = 255)).reverse

/-- Decode a raw flash byte buffer into lines, modelling
raw.decode(ENCODING).replace(tab, empty).replace(cr, empty).split(newline)
of Calibration.from_bytes.  The utf-8 decode is modelled as the identity on
bytes (calibration data is ASCII per the class docstring). -/
def calibrationLines (raw : List ℕ) : List (List ℕ) :=
  (((stripTrailingFF raw).filter (fun b => b ≠ 9 ∧ b ≠ 13)).splitOn 10)

/-- Calibration record of aseq_datastructures.py.  Strings are byte lists,
floats are exact rationals, and the three internal arrays keep their
on-flash trailing sentinel elements. -/
structure Calibration where
  model : List ℕ
  type : List ℕ
  serial : ℤ
  irr_scaler : ℚ
  irr_wave : ℚ
  wavelengthsInternal : List ℚ
  prnuNormInternal : List ℚ
  irrNormInternal : List ℚ
  deriving DecidableEq, Repr

namespace Calibration

/-- Public wavelengths accessor: the internal array with its last five
elements removed (the slice [:-5] of the source property). -/
def wavelengths (c : Calibration) : List ℚ :=
  c.wavelengthsInternal.take (c.wavelengthsInternal.length - 5)

/-- Public PRNU accessor: the internal array with its last six elements
removed (the slice [:-6] of the source property). -/
def prnu_norm (c : Calibration) : List ℚ :=
  c.prnuNormInternal.take (c.prnuNormInternal.length - 6)

/-- Public irradiance-normalisation accessor: the internal array with its
last six elements removed (the slice [:-6] of the source property). -/
def irr_norm (c : Calibration) : List ℚ :=
  c.irrNormInternal.take (c.irrNormInternal.length - 6)

/-- Calibration.from_bytes: strip 0xFF filler, decode and split into lines,
require exactly CALIBRATION_LINES lines, then parse the header (line 0),
irr_scaler (line 1), irr_wave (line 2), the wavelength array
(lines [12,3665)), the PRNU array (lines [3666,7318)) to which two sentinel
1.0 values are appended, and the irradiance array (lines [7320,10974)).
Failures are sequenced exactly as the Python statements raise. -/
def from_bytes (raw : List ℕ) : Except CalError Calibration :=
  let lines := calibrationLines raw
  if lines.length ≠ CALIBRATION_LINES then .error .formatError
  else if (splitWs (lines.getD 0 [])).length < 3 then .error .indexError
  else
    match parseInt ((splitWs (lines.getD 0 [])).getD 2 []) with
    | none => .error .valueError
    | some serial =>
    match parseFloat (lines.getD 1 []) with
    | none => .error .valueError
    | some scaler =>
    match parseFloat (lines.getD 2 []) with
    | none => .error .valueError
    | some wave =>
    match parseFloats ((lines.take 3665).drop 12) with
    | none => .error .valueError
    | some wl =>
    match parseFloats ((lines.take 7318).drop 3666) with
    | none => .error .valueError
    | some prnu =>
    match parseFloats ((lines.take 10974).drop 7320) with
    | none => .error .valueError
    | some irr =>
        .ok ⟨(splitWs (lines.getD 0 [])).getD 0 [], (splitWs (lines.getD 0 [])).getD 1 [],
          serial, scaler, wave, wl, prnu ++ [1, 1], irr⟩

/-- Python list slice assignment l[a:b] = xs for 0 <= a <= b, as used by
Calibration.to_bytes. -/
def pySetSlice (l : List (List ℕ)) (a b : ℕ) (xs : List (List ℕ)) : List (List ℕ) :=
  l.take a ++ xs ++ l.drop b

/-- Calibration.to_bytes: build a CALIBRATION_LINES-long list of text lines
(header at line 0, irr_scaler at line 1, irr_wave at line 2, wavelengths at
[12,3665), PRNU at [3666,7320), irradiance at [7321,10975)), join the lines
with newline bytes and encode. -/
def to_bytes (c : Calibration) : List ℕ :=
  let report0 := List.replicate CALIBRATION_LINES ([] : List ℕ)
  let report1 := report0.set 0 (c.model ++ [32] ++ c.type ++ [32] ++ fmtInt c.serial)
  let report2 := report1.set 1 (fmtSci6 c.irr_scaler)
  let report3 := report2.set 2 (fmtFix6 c.irr_wave)
  let report4 := pySetSlice report3 12 3665 (c.wavelengthsInternal.map fmtStr)
  let report5 := pySetSlice report4 3666 7320 (c.prnuNormInternal.map fmtStr)
  let report6 := pySetSlice report5 7321 10975 (c.irrNormInternal.map fmtStr)
  List.intercalate [10] report6

end Calibration

/-- LR1.get_calibration as executed at device open: read the calibration
flash region, parse it, and store the result; every exception is caught and
logged, leaving the session calibration attribute at its initial None, and
open continues.  The flash read outcome is passed in. -/
def get_calibration_at_open (readResult : Except LRError (List ℕ)) : Option Calibration :=
  match readResult with
  | .error _ => none
  | .ok raw =>
      match Calibration.from_bytes raw with
      | .ok c => some c
      | .error _ => none

/-! ### Frame reassembly (LR1.get_raw_frame) -/

/-- One decoded get_frame reply packet: struct format BHB plus thirty
sixteen-bit pixels, of which the leading report id byte is dropped. -/
structure FramePacket where
  pixel_offset : ℕ
  packets_remaining : ℕ
  pixels : List ℕ
  deriving DecidableEq, Repr

/-- Python list slice assignment buffer[off : off + len(xs)] = xs, the
write used by both reassembly loops.  When the slice extends past the end
of the buffer the buffer grows, exactly as in Python. -/
def setSlice (buffer : List ℕ) (off : ℕ) (xs : List ℕ) : List ℕ :=
  buffer.take off ++ xs ++ buffer.drop (off + xs.length)

/-- Receive loop of LR1.get_raw_frame.  Consumes reply packets from the
stream; for each one, checks the device-error threshold first, then the
remaining-packets countdown (an exact integer comparison, as in Python),
then writes the packet's pixels at [pixel_offset, pixel_offset + 30).
An exhausted stream models a receive timeout. -/
def getFrameLoop (packets_to_get : ℕ) (stream : List FramePacket)
    (frame_buffer : List ℕ) (packets_received : ℕ) : Except LRError (List ℕ) :=
  match stream with
  | [] => .error .transportError
  | pkt :: rest =>
      if REMAINING_PACKETS_ERROR ≤ pkt.packets_remaining then .error .deviceError
      else if (pkt.packets_remaining : ℤ) ≠ (packets_to_get : ℤ) - (packets_received + 1 : ℤ) then
        .error .droppedPacket
      else
        let frame_buffer := setSlice frame_buffer pkt.pixel_offset pkt.pixels
        if 0 < pkt.packets_remaining then
          getFrameLoop packets_to_get rest frame_buffer (packets_received + 1)
        else .ok frame_buffer

/-- LR1.get_raw_frame: compute the packet count as the ceiling of
pixels_in_frame / 30, reject frames over MAX_PACKETS_IN_FRAME packets, run
the receive loop over a zero-initialised buffer, then drop the first 32 and
keep up to pixels_in_frame - 14 samples (the slice [32 : pixels_in_frame - 14]). -/
def get_raw_frame (pixels_in_frame : ℕ) (stream : List FramePacket) :
    Except LRError (List ℕ) :=
  let packets_to_get := (pixels_in_frame + 29) / 30
  if MAX_PACKETS_IN_FRAME < packets_to_get then .error .validationError
  else
    (getFrameLoop packets_to_get stream (List.replicate pixels_in_frame 0) 0).map
      (fun buf => (buf.take (pixels_in_frame - 14)).drop 32)

/-! ### Flash access (LR1.read_flash / LR1.write_flash) -/

/-- One decoded read_flash reply packet: struct format BHB plus sixty
payload bytes, with the leading report id byte dropped. -/
structure FlashPacket where
  local_offset : ℕ
  packets_remaining : ℕ
  payload : List ℕ
  deriving DecidableEq, Repr

/-- LR1._check_flash_parameters with the length already extracted (an int
argument passes itself, a byte string passes its length).  Arguments are
integers, as in Python, so negative values are representable. -/
def check_flash_parameters (length offset : ℤ) : Except LRError Unit :=
  if length < 0 ∨ offset < 0 then .error .validationError
  else if FLASH_MAX_OFFSET < offset then .error .validationError
  else if FLASH_MAX_BYTES < offset + length then .error .validationError
  else .ok ()

/-- Inner receive loop of LR1.read_flash for one batch: same per-packet
checks as the frame loop, with each payload written at
offset_increment + local_offset.  Returns the updated buffer and the
unconsumed remainder of the reply stream. -/
def readFlashLoop (packet_batch : ℕ) (offset_increment : ℕ) (stream : List FlashPacket)
    (buffer : List ℕ) (packets_received : ℕ) :
    Except LRError (List ℕ × List FlashPacket) :=
  match stream with
  | [] => .error .transportError
  | pkt :: rest =>
      if REMAINING_PACKETS_ERROR ≤ pkt.packets_remaining then .error .deviceError
      else if (pkt.packets_remaining : ℤ) ≠ (packet_batch : ℤ) - (packets_received + 1 : ℤ) then
        .error .droppedPacket
      else
        let buffer := setSlice buffer (offset_increment + pkt.local_offset) pkt.payload
        if 0 < pkt.packets_remaining then
          readFlashLoop packet_batch offset_increment rest buffer (packets_received + 1)
        else .ok (buffer, rest)

/-- Outer batching loop of LR1.read_flash: while packets remain, request a
batch of at most FLASH_MAX_READ_PACKETS packets, run the inner receive
loop, then advance by the batch.  Returns the list of (absolute offset,
batch size) requests sent, paired with the outcome. -/
def readFlashBatches (abs_offset : ℤ) (packets_to_get : ℕ) (offset_increment : ℕ)
    (buffer : List ℕ) (stream : List FlashPacket) :
    List (ℤ × ℕ) × Except LRError (List ℕ) :=
  if _h : packets_to_get = 0 then ([], .ok buffer)
  else
    match readFlashLoop (min packets_to_get FLASH_MAX_READ_PACKETS) offset_increment
        stream buffer 0 with
    | .error e =>
        ([(abs_offset + offset_increment, min packets_to_get FLASH_MAX_READ_PACKETS)],
          .error e)
    | .ok (buffer', rest) =>
        ((abs_offset + offset_increment, min packets_to_get FLASH_MAX_READ_PACKETS) ::
            (readFlashBatches abs_offset
              (packets_to_get - min packets_to_get FLASH_MAX_READ_PACKETS)
              (offset_increment + min packets_to_get FLASH_MAX_READ_PACKETS * 60)
              buffer' rest).1,
          (readFlashBatches abs_offset
            (packets_to_get - min packets_to_get FLASH_MAX_READ_PACKETS)
            (offset_increment + min packets_to_get FLASH_MAX_READ_PACKETS * 60)
            buffer' rest).2)
  termination_by packets_to_get
  decreasing_by
    all_goals
      simp only [FLASH_MAX_READ_PACKETS]
      omega

/-- LR1.read_flash: validate the bounds, compute a 60-byte payload size and
the ceiling packet count, read in batches into a flat buffer of
60 * packets_to_get zero bytes, and return the first bytes_to_read bytes.
The first component is the list of requests sent (empty when validation
fails, so a validation failure provably performs no transport calls). -/
def read_flash (bytes_to_read : ℤ) (abs_offset : ℤ) (stream : List FlashPacket) :
    List (ℤ × ℕ) × Except LRError (List ℕ) :=
  match check_flash_parameters bytes_to_read abs_offset with
  | .error e => ([], .error e)
  | .ok _ =>
      ((readFlashBatches abs_offset ((bytes_to_read.toNat + 59) / 60) 0
          (List.replicate ((bytes_to_read.toNat + 59) / 60 * 60) 0) stream).1,
        ((readFlashBatches abs_offset ((bytes_to_read.toNat + 59) / 60) 0
          (List.replicate ((bytes_to_read.toNat + 59) / 60 * 60) 0) stream).2).map
          (fun buf => buf.take bytes_to_read.toNat))

/-- Chunking loop of LR1.write_flash: while bytes remain, take at most
FLASH_MAX_WRITE_BYTES bytes from data_bytes at read_offset, emit one
(write_offset, payload) request, and advance both offsets by the chunk
size.  Each emitted request corresponds to one send plus one reply in the
source. -/
def writeFlashLoop (data_bytes : List ℕ) (bytes_remaining read_offset : ℕ)
    (write_offset : ℤ) : List (ℤ × List ℕ) :=
  if _h : bytes_remaining = 0 then []
  else
    (write_offset,
        (data_bytes.drop read_offset).take (min bytes_remaining FLASH_MAX_WRITE_BYTES)) ::
      writeFlashLoop data_bytes (bytes_remaining - min bytes_remaining FLASH_MAX_WRITE_BYTES)
        (read_offset + min bytes_remaining FLASH_MAX_WRITE_BYTES)
        (write_offset + (min bytes_remaining FLASH_MAX_WRITE_BYTES : ℕ))
  termination_by bytes_remaining
  decreasing_by
    simp only [FLASH_MAX_WRITE_BYTES]
    omega

/-- LR1.write_flash: validate the bounds against the data length, then send
the data in chunks.  The first component is the list of
(write offset, payload) requests sent, in order; it is empty when
validation fails. -/
def write_flash (data_bytes : List ℕ) (abs_offset : ℤ) :
    List (ℤ × List ℕ) × Except LRError Unit :=
  match check_flash_parameters (data_bytes.length : ℤ) abs_offset with
  | .error e => ([], .error e)
  | .ok _ => (writeFlashLoop data_bytes data_bytes.length 0 abs_offset, .ok ())

/-! ### Capture sequencing (LR1.grab_one) -/

/-- Externally observable operations performed by grab_one, in order. -/
inductive Event
  /-- set_parameters, pushing the cached parameters block; the exposure
  field it carries is recorded. -/
  | setParameters (exposure_time_ms : ℚ)
  | clearMemory
  | softwareTrigger
  | getStatus
  | sleepSeconds (seconds : ℚ)
  | getRawFrame
  deriving DecidableEq, Repr

/-- Exposure-update step at the top of grab_one: the cached exposure is
overwritten only when the argument is truthy in Python, i.e. present and
nonzero. -/
def grabOneExposure (cached : ℚ) (exposure_ms : Option ℚ) : ℚ :=
  match exposure_ms with
  | none => cached
  | some v => if v = 0 then cached else v

/-- Status polling loop of grab_one: call get_status; while the returned
status byte equals Status.in_progress (exactly the value 1, by IntFlag
equality), sleep exposure/1000 seconds and poll again.  The stream lists
the status bytes successive polls return; an exhausted stream models a
transport timeout. -/
def grabOneLoop (exposure : ℚ) (stream : List ℕ) : Option (List Event) :=
  match stream with
  | [] => none
  | s :: rest =>
      if s = 1 then
        match grabOneLoop exposure rest with
        | none => none
        | some tr => some (Event.getStatus :: Event.sleepSeconds (exposure / 1000) :: tr)
      else some [Event.getStatus]

/-- LR1.grab_one: optionally update the cached exposure, push parameters,
clear memory, software-trigger, poll status until it leaves in_progress,
then read the frame.  Returns the event trace and the exposure in effect,
or none when a poll gets no reply. -/
def grab_one (cached_exposure : ℚ) (exposure_ms : Option ℚ) (stream : List ℕ) :
    Option (List Event × ℚ) :=
  let p := grabOneExposure cached_exposure exposure_ms
  match grabOneLoop p stream with
  | none => none
  | some tr =>
      some (Event.setParameters p :: Event.clearMemory :: Event.softwareTrigger ::
        (tr ++ [Event.getRawFrame]), p)

/-! ### Lemmas about slice-assignment writes -/

theorem setSlice_length_le (buffer : List ℕ) (off : ℕ) (xs : List ℕ) :
    buffer.length ≤ (setSlice buffer off xs).length := by
  simp only [setSlice, List.length_append, List.length_take, List.length_drop]
  omega

theorem setSlice_getElem? (buffer : List ℕ) (off : ℕ) (xs : List ℕ)
    (h : off ≤ buffer.length) (p : ℕ) :
    (setSlice buffer off xs)[p]? =
      if p < off then buffer[p]?
      else if p < off + xs.length then xs[p - off]?
      else buffer[p]? := by
  have hlt : (buffer.take off).length = off := by
    simp only [List.length_take]
    omega
  have hlt2 : (buffer.take off ++ xs).length = off + xs.length := by
    simp only [List.length_append, hlt]
  unfold setSlice
  by_cases h1 : p < off
  · rw [List.getElem?_append_left (by rw [hlt2]; omega),
      List.getElem?_append_left (by rw [hlt]; omega), List.getElem?_take_of_lt h1,
      if_pos h1]
  · by_cases h2 : p < off + xs.length
    · rw [List.getElem?_append_left (by rw [hlt2]; omega),
        List.getElem?_append_right (by rw [hlt]; omega), hlt, if_neg h1, if_pos h2]
    · rw [List.getElem?_append_right (by rw [hlt2]; omega), hlt2, List.getElem?_drop,
        if_neg h1, if_neg h2]
      congr 1
      omega

/-- Fold of slice-assignment writes of equal-sized blocks: block j is
written at base + L * j; the blocks are processed in the order given. -/
def writeBlocks (base L : ℕ) (data : ℕ → List ℕ) (order : List ℕ)
    (buffer : List ℕ) : List ℕ :=
  match order with
  | [] => buffer
  | j :: rest => writeBlocks base L data rest (setSlice buffer (base + L * j) (data j))

theorem writeBlocks_length_le (base L : ℕ) (data : ℕ → List ℕ) (order : List ℕ)
    (buffer : List ℕ) :
    buffer.length ≤ (writeBlocks base L data order buffer).length := by
  induction order generalizing buffer with
  | nil => exact le_rfl
  | cons j rest ih =>
      exact le_trans (setSlice_length_le buffer (base + L * j) (data j))
        (ih (setSlice buffer (base + L * j) (data j)))

theorem writeBlocks_getElem?_out (base L : ℕ) (data : ℕ → List ℕ) (order : List ℕ)
    (buffer : List ℕ)
    (hbound : ∀ i ∈ order, base + L * i ≤ buffer.length)
    (hdata : ∀ i ∈ order, (data i).length = L) (p : ℕ)
    (hp : ∀ i ∈ order, p < base + L * i ∨ base + L * i + L ≤ p) :
    (writeBlocks base L data order buffer)[p]? = buffer[p]? := by
  induction order generalizing buffer with
  | nil => rfl
  | cons j rest ih =>
      rw [writeBlocks]
      rw [ih (setSlice buffer (base + L * j) (data j))
        (fun i hi => le_trans (hbound i (List.mem_cons_of_mem _ hi))
          (setSlice_length_le _ _ _))
        (fun i hi => hdata i (List.mem_cons_of_mem _ hi))
        (fun i hi => hp i (List.mem_cons_of_mem _ hi))]
      rw [setSlice_getElem? buffer _ _ (hbound j (List.mem_cons_self _ _)) p]
      have hdj := hdata j (List.mem_cons_self _ _)
      rcases hp j (List.mem_cons_self _ _) with hout | hout
      · rw [if_pos hout]
      · rw [if_neg (by omega), if_neg (by omega)]

theorem writeBlocks_getElem?_in (base L : ℕ) (data : ℕ → List ℕ) (order : List ℕ)
    (buffer : List ℕ) (hnd : order.Nodup)
    (hbound : ∀ i ∈ order, base + L * i ≤ buffer.length)
    (hdata : ∀ i ∈ order, (data i).length = L)
    (j : ℕ) (hj : j ∈ order) (r : ℕ) (hr : r < L) :
    (writeBlocks base L data order buffer)[base + L * j + r]? = (data j)[r]? := by
  induction order generalizing buffer with
  | nil => cases hj
  | cons i rest ih =>
      rw [writeBlocks]
      rcases List.mem_cons.mp hj with rfl | hjr
      · have hout : ∀ i' ∈ rest,
            base + L * j + r < base + L * i' ∨ base + L * i' + L ≤ base + L * j + r := by
          intro i' hi'
          have hne : i' ≠ j := fun he => (List.nodup_cons.mp hnd).1 (he ▸ hi')
          rcases Nat.lt_or_ge i' j with hc | hc
          · right
            have h1 : L * (i' + 1) ≤ L * j := Nat.mul_le_mul_left L hc
            rw [Nat.mul_add, Nat.mul_one] at h1
            omega
          · left
            have hc' : j + 1 ≤ i' := Nat.lt_of_le_of_ne hc (Ne.symm hne)
            have h1 : L * (j + 1) ≤ L * i' := Nat.mul_le_mul_left L hc'
            rw [Nat.mul_add, Nat.mul_one] at h1
            omega
        rw [writeBlocks_getElem?_out base L data rest _
          (fun i' hi' => le_trans (hbound i' (List.mem_cons_of_mem _ hi'))
            (setSlice_length_le _ _ _))
          (fun i' hi' => hdata i' (List.mem_cons_of_mem _ hi'))
          _ hout]
        rw [setSlice_getElem? buffer _ _ (hbound j (List.mem_cons_self _ _)) _]
        have hdj := hdata j (List.mem_cons_self _ _)
        rw [if_neg (by omega), if_pos (by omega)]
        congr 1
        omega
      · exact ih (setSlice buffer (base + L * i) (data i)) (List.nodup_cons.mp hnd).2
          (fun i' hi' => le_trans (hbound i' (List.mem_cons_of_mem _ hi'))
            (setSlice_length_le _ _ _))
          (fun i' hi' => hdata i' (List.mem_cons_of_mem _ hi'))
          hjr

theorem getElem?_take_eq_ite {α : Type} (l : List α) (t m : ℕ) :
    (l.take t)[m]? = if m < t then l[m]? else none := by
  by_cases h : m < t
  · rw [List.getElem?_take_of_lt h, if_pos h]
  · rw [if_neg h]
    exact List.getElem?_eq_none (by simp only [List.length_take]; omega)

/-! ### Well-formed reply streams for get_raw_frame -/

/-- Reply stream for a frame of n packets, delivered in the given block
order starting after k packets already received: the packet for block j
carries pixel offset 30 * j, the correct countdown value, and block j of
the pixel data. -/
def mkFrameStream (n k : ℕ) (data : ℕ → List ℕ) (order : List ℕ) : List FramePacket :=
  match order with
  | [] => []
  | j :: rest => ⟨30 * j, n - (k + 1), data j⟩ :: mkFrameStream n (k + 1) data rest

theorem mkFrameStream_cons (n k : ℕ) (data : ℕ → List ℕ) (j : ℕ) (rest : List ℕ) :
    mkFrameStream n k data (j :: rest) =
      ⟨30 * j, n - (k + 1), data j⟩ :: mkFrameStream n (k + 1) data rest := rfl

theorem getFrameLoop_cons (n off rem : ℕ) (pix : List ℕ) (rest : List FramePacket)
    (buffer : List ℕ) (k : ℕ) :
    getFrameLoop n (⟨off, rem, pix⟩ :: rest) buffer k =
      if REMAINING_PACKETS_ERROR ≤ rem then .error .deviceError
      else if (rem : ℤ) ≠ (n : ℤ) - (k + 1 : ℤ) then .error .droppedPacket
      else if 0 < rem then getFrameLoop n rest (setSlice buffer off pix) (k + 1)
      else .ok (setSlice buffer off pix) := rfl

theorem getFrameLoop_mkFrameStream (n : ℕ) (data : ℕ → List ℕ) (hn : n ≤ 124) :
    ∀ (order : List ℕ) (k : ℕ) (buffer : List ℕ), k + order.length = n → order ≠ [] →
      getFrameLoop n (mkFrameStream n k data order) buffer k =
        .ok (writeBlocks 0 30 data order buffer)
  | [], _, _, _, hne => absurd rfl hne
  | j :: [], k, buffer, hk, _ => by
      have hk1 : k + 1 = n := by
        simp only [List.length_cons, List.length_nil] at hk
        omega
      rw [mkFrameStream_cons, getFrameLoop_cons]
      rw [if_neg (by simp only [REMAINING_PACKETS_ERROR]; omega)]
      rw [if_neg (by omega)]
      rw [if_neg (by omega)]
      simp only [writeBlocks, Nat.zero_add]
  | j :: j2 :: rest2, k, buffer, hk, _ => by
      have hk1 : k + 1 < n := by
        simp only [List.length_cons] at hk
        omega
      rw [mkFrameStream_cons, getFrameLoop_cons]
      rw [if_neg (by simp only [REMAINING_PACKETS_ERROR]; omega)]
      rw [if_neg (by omega)]
      rw [if_pos (by omega)]
      rw [getFrameLoop_mkFrameStream n data hn (j2 :: rest2) (k + 1)
        (setSlice buffer (30 * j) (data j))
        (by simp only [List.length_cons] at hk ⊢; omega) (by simp)]
      simp only [writeBlocks, Nat.zero_add]

/-- Claim C2, amended with the one condition the degenerate empty frame
forces (at least one pixel, hence at least one packet): for every frame
format whose packet count is within the protocol maximum and every
well-formed reply stream delivering the frame's packet blocks in an
arbitrary order with correct countdown fields, get_raw_frame writes each
packet's thirty pixels at [pixel_offset, pixel_offset + 30) and returns
the reassembled buffer with the first 32 and last 14 samples dropped,
which is exactly the original pixel sequence on that trimmed range, of
length pixels_in_frame - 46. -/
theorem c2_frame_reassembly (pixels_in_frame : ℕ) (original : List ℕ) (order : List ℕ)
    (hpos : 1 ≤ pixels_in_frame)
    (hmax : (pixels_in_frame + 29) / 30 ≤ MAX_PACKETS_IN_FRAME)
    (horig : original.length = 30 * ((pixels_in_frame + 29) / 30))
    (hlen : order.length = (pixels_in_frame + 29) / 30)
    (hnd : order.Nodup)
    (hmem : ∀ j, j ∈ order ↔ j < (pixels_in_frame + 29) / 30) :
    get_raw_frame pixels_in_frame
        (mkFrameStream ((pixels_in_frame + 29) / 30) 0
          (fun j => (original.drop (30 * j)).take 30) order)
      = .ok ((original.take (pixels_in_frame - 14)).drop 32)
    ∧ ((original.take (pixels_in_frame - 14)).drop 32).length = pixels_in_frame - 46 := by
  have hmax' : (pixels_in_frame + 29) / 30 ≤ 124 := by
    simpa only [MAX_PACKETS_IN_FRAME] using hmax
  have horder_ne : order ≠ [] := by
    intro h
    rw [h, List.length_nil] at hlen
    omega
  have hpoint : ∀ p, p < 30 * ((pixels_in_frame + 29) / 30) →
      (writeBlocks 0 30 (fun j => (original.drop (30 * j)).take 30) order
        (List.replicate pixels_in_frame 0))[p]? = original[p]? := by
    intro p hp
    have hj : p / 30 ∈ order := (hmem _).mpr (by omega)
    have hkey := writeBlocks_getElem?_in 0 30
      (fun j => (original.drop (30 * j)).take 30) order
      (List.replicate pixels_in_frame 0) hnd
      (fun i hi => by
        have hi' : i < (pixels_in_frame + 29) / 30 := (hmem i).mp hi
        simp only [List.length_replicate]
        omega)
      (fun i hi => by
        have hi' : i < (pixels_in_frame + 29) / 30 := (hmem i).mp hi
        simp only [List.length_take, List.length_drop, horig]
        omega)
      (p / 30) hj (p % 30) (by omega)
    rw [show 0 + 30 * (p / 30) + p % 30 = p from by omega] at hkey
    rw [hkey, List.getElem?_take_of_lt (by omega), List.getElem?_drop]
    congr 1
    omega
  constructor
  · unfold get_raw_frame
    rw [if_neg (by simp only [MAX_PACKETS_IN_FRAME]; omega)]
    rw [getFrameLoop_mkFrameStream _ _ hmax' order 0 _ (by omega) horder_ne]
    simp only [Except.map]
    congr 1
    apply List.ext_getElem?
    intro i
    rw [List.getElem?_drop, List.getElem?_drop, getElem?_take_eq_ite, getElem?_take_eq_ite]
    by_cases hi : 32 + i < pixels_in_frame - 14
    · rw [if_pos hi, if_pos hi]
      exact hpoint _ (by omega)
    · rw [if_neg hi, if_neg hi]
  · simp only [List.length_drop, List.length_take, horig]
    omega

/-- Claim C2 as frozen is false at the degenerate frame format with zero
pixels: the packet count is zero and the only stream with correct countdown
fields is empty, yet the receive loop still waits for a packet and times
out instead of returning the trimmed (empty) buffer. -/
theorem c2_counterexample :
    get_raw_frame 0 [] = .error .transportError ∧ get_raw_frame 0 [] ≠ .ok [] := by
  have h : get_raw_frame 0 [] = .error .transportError := rfl
  refine ⟨h, ?_⟩
  rw [h]
  intro hc
  cases hc

/-- Witness for c2_frame_reassembly: the spec's own test vector, a
300-pixel frame (10 packets) delivered in reverse block order. -/
theorem c2_frame_reassembly_witness :
    get_raw_frame 300
        (mkFrameStream 10 0 (fun j => ((List.range 300).drop (30 * j)).take 30)
          [9, 8, 7, 6, 5, 4, 3, 2, 1, 0])
      = .ok (((List.range 300).take 286).drop 32)
    ∧ (((List.range 300).take 286).drop 32).length = 254 := by
  have h := c2_frame_reassembly 300 (List.range 300) [9, 8, 7, 6, 5, 4, 3, 2, 1, 0]
    (by decide) (by decide) (by simp) (by decide) (by decide)
    (by
      intro j
      simp only [List.mem_cons, List.not_mem_nil, or_false]
      omega)
  exact h

theorem readFlashLoop_cons (batch inc off rem : ℕ) (payload : List ℕ)
    (rest : List FlashPacket) (buffer : List ℕ) (k : ℕ) :
    readFlashLoop batch inc (⟨off, rem, payload⟩ :: rest) buffer k =
      if REMAINING_PACKETS_ERROR ≤ rem then .error .deviceError
      else if (rem : ℤ) ≠ (batch : ℤ) - (k + 1 : ℤ) then .error .droppedPacket
      else if 0 < rem then
        readFlashLoop batch inc rest (setSlice buffer (inc + off) payload) (k + 1)
      else .ok (setSlice buffer (inc + off) payload, rest) := rfl

/-- Claim C3: in both receive loops, a packet whose remaining-packets field
is at or above REMAINING_PACKETS_ERROR fails the operation with the
device-error; otherwise a remaining-packets field that differs from the
expected countdown (packets expected in the request or batch minus packets
received so far) fails with the dropped-packet error.  The device-error
check fires first, and both checks are independent of the packet's offset
field, which is universally quantified here. -/
theorem c3_remaining_packet_checks (packets_to_get packet_batch inc received : ℕ)
    (foff frem : ℕ) (fpix : List ℕ) (frest : List FramePacket) (fbuf : List ℕ)
    (goff grem : ℕ) (gpay : List ℕ) (grest : List FlashPacket) (gbuf : List ℕ) :
    (REMAINING_PACKETS_ERROR ≤ frem →
      getFrameLoop packets_to_get (⟨foff, frem, fpix⟩ :: frest) fbuf received =
        .error .deviceError)
    ∧ (frem < REMAINING_PACKETS_ERROR →
        (frem : ℤ) ≠ (packets_to_get : ℤ) - (received + 1 : ℤ) →
        getFrameLoop packets_to_get (⟨foff, frem, fpix⟩ :: frest) fbuf received =
          .error .droppedPacket)
    ∧ (REMAINING_PACKETS_ERROR ≤ grem →
        readFlashLoop packet_batch inc (⟨goff, grem, gpay⟩ :: grest) gbuf received =
          .error .deviceError)
    ∧ (grem < REMAINING_PACKETS_ERROR →
        (grem : ℤ) ≠ (packet_batch : ℤ) - (received + 1 : ℤ) →
        readFlashLoop packet_batch inc (⟨goff, grem, gpay⟩ :: grest) gbuf received =
          .error .droppedPacket) := by
  refine ⟨?_, ?_, ?_, ?_⟩
  · intro h
    rw [getFrameLoop_cons, if_pos h]
  · intro h1 h2
    rw [getFrameLoop_cons, if_neg (by omega), if_pos h2]
  · intro h
    rw [readFlashLoop_cons, if_pos h]
  · intro h1 h2
    rw [readFlashLoop_cons, if_neg (by omega), if_pos h2]

/-- Witness for c3_remaining_packet_checks at concrete packets: a frame
packet and a flash packet with remaining 250 (device error), and ones with
remaining 3 against an expected countdown of 4 (dropped packet), both with
deliberately wrong offsets. -/
theorem c3_remaining_packet_checks_witness :
    getFrameLoop 5 [⟨999, 250, []⟩] [] 0 = .error .deviceError
    ∧ getFrameLoop 5 [⟨999, 3, []⟩] [] 0 = .error .droppedPacket
    ∧ readFlashLoop 5 7 [⟨999, 250, []⟩] [] 0 = .error .deviceError
    ∧ readFlashLoop 5 7 [⟨999, 3, []⟩] [] 0 = .error .droppedPacket := by
  refine ⟨?_, ?_, ?_, ?_⟩
  · exact (c3_remaining_packet_checks 5 5 7 0 999 250 [] [] [] 999 250 [] [] []).1
      (by decide)
  · exact (c3_remaining_packet_checks 5 5 7 0 999 3 [] [] [] 999 3 [] [] []).2.1
      (by decide) (by decide)
  · exact (c3_remaining_packet_checks 5 5 7 0 999 250 [] [] [] 999 250 [] [] []).2.2.1
      (by decide)
  · exact (c3_remaining_packet_checks 5 5 7 0 999 3 [] [] [] 999 3 [] [] []).2.2.2
      (by decide) (by decide)

theorem check_flash_parameters_error (length offset : ℤ)
    (h : length < 0 ∨ offset < 0 ∨ FLASH_MAX_OFFSET < offset
      ∨ FLASH_MAX_BYTES < offset + length) :
    check_flash_parameters length offset = .error .validationError := by
  unfold check_flash_parameters
  split
  next => rfl
  next h1 =>
    split
    next => rfl
    next h2 =>
      split
      next => rfl
      next h3 =>
        exfalso
        rcases h with h | h | h | h <;> simp_all

theorem check_flash_parameters_ok (length offset : ℤ)
    (h : ¬(length < 0 ∨ offset < 0 ∨ FLASH_MAX_OFFSET < offset
      ∨ FLASH_MAX_BYTES < offset + length)) :
    check_flash_parameters length offset = .ok () := by
  unfold check_flash_parameters
  push_neg at h
  rw [if_neg (by omega), if_neg (by exact not_lt.mpr h.2.2.1), if_neg (by exact not_lt.mpr h.2.2.2)]

theorem readFlashLoop_ne_validation (batch inc : ℕ) (stream : List FlashPacket) :
    ∀ (buffer : List ℕ) (k : ℕ),
      readFlashLoop batch inc stream buffer k ≠ .error .validationError := by
  induction stream with
  | nil =>
      intro buffer k h
      rw [readFlashLoop] at h
      cases h
  | cons pkt rest ih =>
      intro buffer k h
      obtain ⟨off, rem, pay⟩ := pkt
      rw [readFlashLoop_cons] at h
      split at h
      next => cases h
      next =>
        split at h
        next => cases h
        next =>
          split at h
          next => exact ih _ _ h
          next => cases h

theorem readFlashBatches_ne_validation (aoff : ℤ) :
    ∀ (n : ℕ) (inc : ℕ) (buffer : List ℕ) (stream : List FlashPacket),
      (readFlashBatches aoff n inc buffer stream).2 ≠ .error .validationError := by
  intro n
  induction n using Nat.strong_induction_on with
  | _ n ih =>
      intro inc buffer stream h
      rw [readFlashBatches.eq_def] at h
      split at h
      next => cases h
      next hne =>
        rcases hL : readFlashLoop (min n FLASH_MAX_READ_PACKETS) inc stream buffer 0 with
          e | pr
        · rw [hL] at h
          have h' : (Except.error e : Except LRError (List ℕ)) = .error .validationError := h
          injection h' with h''
          exact readFlashLoop_ne_validation _ _ _ _ _ (h'' ▸ hL)
        · obtain ⟨buffer', rest⟩ := pr
          rw [hL] at h
          exact ih (n - min n FLASH_MAX_READ_PACKETS)
            (by simp only [FLASH_MAX_READ_PACKETS]; omega) _ _ _ h

theorem readFlashBatches_requests_ne_nil (aoff : ℤ) (n inc : ℕ) (buffer : List ℕ)
    (stream : List FlashPacket) (hn : n ≠ 0) :
    (readFlashBatches aoff n inc buffer stream).1 ≠ [] := by
  rcases hL : readFlashLoop (min n FLASH_MAX_READ_PACKETS) inc stream buffer 0 with e | pr
  · rw [readFlashBatches.eq_def, dif_neg hn, hL]
    simp
  · obtain ⟨buffer', rest⟩ := pr
    rw [readFlashBatches.eq_def, dif_neg hn, hL]
    simp

/-- Claim C4: every (offset, length) pair violating the flash bounds makes
read_flash and write_flash fail with the validation error before any packet
is sent (the request trace is empty); every pair satisfying the bounds
passes validation and proceeds to I/O (the outcome is never the validation
error, and a nonempty transfer sends at least one request). -/
theorem c4_flash_bounds_validation (len off : ℤ) (data : List ℕ)
    (stream : List FlashPacket) :
    ((len < 0 ∨ off < 0 ∨ FLASH_MAX_OFFSET < off ∨ FLASH_MAX_BYTES < off + len) →
      read_flash len off stream = ([], .error .validationError))
    ∧ (((data.length : ℤ) < 0 ∨ off < 0 ∨ FLASH_MAX_OFFSET < off
        ∨ FLASH_MAX_BYTES < off + (data.length : ℤ)) →
      write_flash data off = ([], .error .validationError))
    ∧ (¬(len < 0 ∨ off < 0 ∨ FLASH_MAX_OFFSET < off ∨ FLASH_MAX_BYTES < off + len) →
      check_flash_parameters len off = .ok ()
      ∧ (read_flash len off stream).2 ≠ .error .validationError
      ∧ (0 < len → (read_flash len off stream).1 ≠ []))
    ∧ (¬((data.length : ℤ) < 0 ∨ off < 0 ∨ FLASH_MAX_OFFSET < off
        ∨ FLASH_MAX_BYTES < off + (data.length : ℤ)) →
      check_flash_parameters (data.length : ℤ) off = .ok ()
      ∧ (write_flash data off).2 = .ok ()
      ∧ (data ≠ [] → (write_flash data off).1 ≠ [])) := by
  refine ⟨?_, ?_, ?_, ?_⟩
  · intro h
    unfold read_flash
    rw [check_flash_parameters_error len off h]
  · intro h
    unfold write_flash
    rw [check_flash_parameters_error (data.length : ℤ) off h]
  · intro h
    refine ⟨check_flash_parameters_ok len off h, ?_, ?_⟩
    · unfold read_flash
      rw [check_flash_parameters_ok len off h]
      simp only
      intro hc
      rcases hmap : (readFlashBatches off ((len.toNat + 59) / 60) 0
          (List.replicate ((len.toNat + 59) / 60 * 60) 0) stream).2 with e | v
      · rw [hmap] at hc
        simp only [Except.map] at hc
        injection hc with hc'
        exact readFlashBatches_ne_validation off _ _ _ _ (hc' ▸ hmap)
      · rw [hmap] at hc
        simp only [Except.map] at hc
        cases hc
    · intro hlen
      unfold read_flash
      rw [check_flash_parameters_ok len off h]
      simp only
      exact readFlashBatches_requests_ne_nil off _ _ _ _ (by omega)
  · intro h
    refine ⟨check_flash_parameters_ok (data.length : ℤ) off h, ?_, ?_⟩
    · unfold write_flash
      rw [check_flash_parameters_ok (data.length : ℤ) off h]
    · intro hdata
      unfold write_flash
      rw [check_flash_parameters_ok (data.length : ℤ) off h]
      simp only
      rw [writeFlashLoop.eq_def]
      rw [dif_neg (by simpa using hdata)]
      simp

/-- Witness for c4_flash_bounds_validation: a negative length and an
over-limit offset are rejected with no requests sent; a small valid read
and write pass validation and issue requests. -/
theorem c4_flash_bounds_validation_witness :
    read_flash (-1) 0 [] = ([], .error .validationError)
    ∧ write_flash [1, 2, 3] 0x20000 = ([], .error .validationError)
    ∧ check_flash_parameters 3 5 = .ok ()
    ∧ (read_flash 3 5 []).1 ≠ []
    ∧ (write_flash [1, 2, 3] 5).2 = .ok () := by
  refine ⟨?_, ?_, ?_, ?_, ?_⟩
  · exact (c4_flash_bounds_validation (-1) 0 [] []).1 (by decide)
  · exact (c4_flash_bounds_validation 3 0x20000 [1, 2, 3] []).2.1 (by decide)
  · exact ((c4_flash_bounds_validation 3 5 [] []).2.2.1 (by decide)).1
  · exact ((c4_flash_bounds_validation 3 5 [] []).2.2.1 (by decide)).2.2 (by decide)
  · exact ((c4_flash_bounds_validation 3 5 [1, 2, 3] []).2.2.2 (by decide)).2.1

theorem setSlice_length_eq (buffer : List ℕ) (off : ℕ) (xs : List ℕ)
    (h : off + xs.length ≤ buffer.length) :
    (setSlice buffer off xs).length = buffer.length := by
  simp only [setSlice, List.length_append, List.length_take, List.length_drop]
  omega

theorem writeBlocks_length_eq (base L : ℕ) (data : ℕ → List ℕ) (order : List ℕ)
    (buffer : List ℕ)
    (hbound : ∀ i ∈ order, base + L * i + L ≤ buffer.length)
    (hdata : ∀ i ∈ order, (data i).length = L) :
    (writeBlocks base L data order buffer).length = buffer.length := by
  induction order generalizing buffer with
  | nil => rfl
  | cons j rest ih =>
      rw [writeBlocks]
      have hlen : (setSlice buffer (base + L * j) (data j)).length = buffer.length :=
        setSlice_length_eq _ _ _
          (by rw [hdata j (List.mem_cons_self _ _)]; exact hbound j (List.mem_cons_self _ _))
      rw [ih (setSlice buffer (base + L * j) (data j))
        (fun i hi => by rw [hlen]; exact hbound i (List.mem_cons_of_mem _ hi))
        (fun i hi => hdata i (List.mem_cons_of_mem _ hi)), hlen]

/-! ### Well-formed reply streams for read_flash -/

/-- One batch of a read_flash reply stream: the packets of a batch of b
packets, delivered in the given block order, with correct countdown values;
block j carries local offset 60 * j and payload block j. -/
def mkFlashBatchStream (b k : ℕ) (data : ℕ → List ℕ) (order : List ℕ) : List FlashPacket :=
  match order with
  | [] => []
  | j :: rest => ⟨60 * j, b - (k + 1), data j⟩ :: mkFlashBatchStream b (k + 1) data rest

theorem mkFlashBatchStream_cons (b k : ℕ) (data : ℕ → List ℕ) (j : ℕ) (rest : List ℕ) :
    mkFlashBatchStream b k data (j :: rest) =
      ⟨60 * j, b - (k + 1), data j⟩ :: mkFlashBatchStream b (k + 1) data rest := rfl

theorem readFlashLoop_mkFlashBatchStream (b inc : ℕ) (data : ℕ → List ℕ) (hb : b ≤ 100)
    (tail : List FlashPacket) :
    ∀ (order : List ℕ) (k : ℕ) (buffer : List ℕ), k + order.length = b → order ≠ [] →
      readFlashLoop b inc (mkFlashBatchStream b k data order ++ tail) buffer k =
        .ok (writeBlocks inc 60 data order buffer, tail)
  | [], _, _, _, hne => absurd rfl hne
  | j :: [], k, buffer, hk, _ => by
      have hk1 : k + 1 = b := by
        simp only [List.length_cons, List.length_nil] at hk
        omega
      rw [mkFlashBatchStream_cons, List.cons_append, readFlashLoop_cons]
      rw [if_neg (by simp only [REMAINING_PACKETS_ERROR]; omega)]
      rw [if_neg (by omega)]
      rw [if_neg (by omega)]
      simp only [mkFlashBatchStream, List.nil_append, writeBlocks]
  | j :: j2 :: rest2, k, buffer, hk, _ => by
      have hk1 : k + 1 < b := by
        simp only [List.length_cons] at hk
        omega
      rw [mkFlashBatchStream_cons, List.cons_append, readFlashLoop_cons]
      rw [if_neg (by simp only [REMAINING_PACKETS_ERROR]; omega)]
      rw [if_neg (by omega)]
      rw [if_pos (by omega)]
      rw [readFlashLoop_mkFlashBatchStream b inc data hb tail (j2 :: rest2) (k + 1)
        (setSlice buffer (inc + 60 * j) (data j))
        (by simp only [List.length_cons] at hk ⊢; omega) (by simp)]
      simp only [writeBlocks]

/-- Full read_flash reply stream for n packets starting at global packet
index start: batches of at most 100 sequential packets, matching the
batching the driver requests. -/
def mkFlashStream (pl : ℕ → List ℕ) (n start : ℕ) : List FlashPacket :=
  if _h : n = 0 then []
  else
    mkFlashBatchStream (min n 100) 0 (fun i => pl (start + i))
        (List.range (min n 100)) ++
      mkFlashStream pl (n - min n 100) (start + min n 100)
  termination_by n
  decreasing_by omega

theorem readFlashBatches_mkFlashStream (aoff : ℤ) (pl : ℕ → List ℕ)
    (hpl : ∀ i, (pl i).length = 60) :
    ∀ (n : ℕ) (start : ℕ) (buffer : List ℕ), 60 * (start + n) ≤ buffer.length →
      (((readFlashBatches aoff n (60 * start) buffer (mkFlashStream pl n start)).1.map
          Prod.snd).sum = n
      ∧ (∀ r ∈ (readFlashBatches aoff n (60 * start) buffer
          (mkFlashStream pl n start)).1, r.2 ≤ 100 ∧ 1 ≤ r.2)
      ∧ ∃ B, (readFlashBatches aoff n (60 * start) buffer (mkFlashStream pl n start)).2
            = .ok B
          ∧ B.length = buffer.length
          ∧ ∀ p, B[p]? =
              if 60 * start ≤ p ∧ p < 60 * (start + n) then (pl (p / 60))[p % 60]?
              else buffer[p]?) := by
  intro n
  induction n using Nat.strong_induction_on with
  | _ n ih =>
      intro start buffer hbuf
      by_cases hn : n = 0
      · subst hn
        rw [mkFlashStream, dif_pos rfl, readFlashBatches, dif_pos rfl]
        refine ⟨rfl, by simp, buffer, rfl, rfl, ?_⟩
        intro p
        rw [if_neg (by omega)]
      · have hb1 : 1 ≤ min n 100 := by omega
        have hnodup : (List.range (min n 100)).Nodup := List.nodup_range _
        have hboundeq : ∀ i ∈ List.range (min n 100),
            60 * start + 60 * i + 60 ≤ buffer.length := by
          intro i hi
          rw [List.mem_range] at hi
          omega
        have hdata : ∀ i ∈ List.range (min n 100),
            ((fun i => pl (start + i)) i).length = 60 := fun i _ => hpl (start + i)
        have hloop := readFlashLoop_mkFlashBatchStream (min n 100) (60 * start)
          (fun i => pl (start + i)) (by omega) (mkFlashStream pl (n - min n 100)
            (start + min n 100)) (List.range (min n 100)) 0 buffer
          (by simp) (by simp only [ne_eq, List.range_eq_nil]; omega)
        have hwblen : (writeBlocks (60 * start) 60 (fun i => pl (start + i))
            (List.range (min n 100)) buffer).length = buffer.length :=
          writeBlocks_length_eq _ _ _ _ _ hboundeq hdata
        have hrec := ih (n - min n 100) (by omega) (start + min n 100)
          (writeBlocks (60 * start) 60 (fun i => pl (start + i))
            (List.range (min n 100)) buffer)
          (by rw [hwblen]; omega)
        have hstep : readFlashBatches aoff n (60 * start) buffer (mkFlashStream pl n start)
            = ((aoff + ((60 * start : ℕ) : ℤ), min n 100) ::
                (readFlashBatches aoff (n - min n 100) (60 * (start + min n 100))
                  (writeBlocks (60 * start) 60 (fun i => pl (start + i))
                    (List.range (min n 100)) buffer)
                  (mkFlashStream pl (n - min n 100) (start + min n 100))).1,
              (readFlashBatches aoff (n - min n 100) (60 * (start + min n 100))
                (writeBlocks (60 * start) 60 (fun i => pl (start + i))
                  (List.range (min n 100)) buffer)
                (mkFlashStream pl (n - min n 100) (start + min n 100))).2) := by
          conv_lhs => rw [mkFlashStream, dif_neg hn, readFlashBatches.eq_def, dif_neg hn]
          simp only [FLASH_MAX_READ_PACKETS]
          rw [hloop]
          rw [show (60 : ℕ) * start + min n 100 * 60 = 60 * (start + min n 100) from by ring]
        rw [hstep]
        obtain ⟨hsum, hle, B, hok, hBlen, hBpt⟩ := hrec
        refine ⟨?_, ?_, B, ?_, ?_, ?_⟩
        · simp only [List.map_cons, List.sum_cons, hsum]
          omega
        · intro r hr
          simp only [List.mem_cons] at hr
          rcases hr with rfl | hr
          · exact ⟨min_le_right _ _, hb1⟩
          · exact hle r hr
        · exact hok
        · rw [hBlen, hwblen]
        · intro p
          rw [hBpt p]
          by_cases h1 : 60 * (start + min n 100) ≤ p ∧ p < 60 * (start + min n 100 + (n - min n 100))
          · rw [if_pos h1, if_pos (by omega)]
          · rw [if_neg h1]
            by_cases h2 : 60 * start ≤ p ∧ p < 60 * (start + min n 100)
            · have hj : (p - 60 * start) / 60 ∈ List.range (min n 100) := by
                rw [List.mem_range]
                omega
              have hkey := writeBlocks_getElem?_in (60 * start) 60
                (fun i => pl (start + i)) (List.range (min n 100)) buffer hnodup
                (fun i hi => by
                  rw [List.mem_range] at hi
                  omega)
                hdata ((p - 60 * start) / 60) hj ((p - 60 * start) % 60) (by omega)
              rw [show 60 * start + 60 * ((p - 60 * start) / 60) + (p - 60 * start) % 60 = p
                from by omega] at hkey
              rw [hkey, if_pos (by omega)]
              show (pl (start + (p - 60 * start) / 60))[(p - 60 * start) % 60]?
                = (pl (p / 60))[p % 60]?
              rw [show start + (p - 60 * start) / 60 = p / 60 from by omega,
                show (p - 60 * start) % 60 = p % 60 from by omega]
            · rw [if_neg (by omega)]
              rw [writeBlocks_getElem?_out (60 * start) 60 (fun i => pl (start + i))
                (List.range (min n 100)) buffer
                (fun i hi => by
                  rw [List.mem_range] at hi
                  omega)
                hdata p
                (fun i hi => by
                  rw [List.mem_range] at hi
                  omega)]

theorem length_range_flatMap (pl : ℕ → List ℕ) (hpl : ∀ i, (pl i).length = 60) (n : ℕ) :
    ((List.range n).flatMap pl).length = 60 * n := by
  induction n with
  | zero => rfl
  | succ n ih =>
      rw [List.range_succ, List.flatMap_append, List.length_append, ih]
      have h1 : ([n] : List ℕ).flatMap pl = pl n := by simp
      rw [h1, hpl n]
      omega

theorem getElem?_range_flatMap (pl : ℕ → List ℕ) (hpl : ∀ i, (pl i).length = 60)
    (n i : ℕ) (hi : i < 60 * n) :
    ((List.range n).flatMap pl)[i]? = (pl (i / 60))[i % 60]? := by
  induction n with
  | zero => omega
  | succ n ih =>
      rw [List.range_succ, List.flatMap_append]
      by_cases h : i < 60 * n
      · rw [List.getElem?_append_left (by rw [length_range_flatMap pl hpl]; omega)]
        exact ih h
      · rw [List.getElem?_append_right (by rw [length_range_flatMap pl hpl]; omega),
          length_range_flatMap pl hpl]
        have h1 : ([n] : List ℕ).flatMap pl = pl n := by simp
        rw [h1, show i / 60 = n from by omega, show i - 60 * n = i % 60 from by omega]

/-- Claim C7: for every valid (length, offset) and a well-formed reply
stream, read_flash requests the ceiling of length / 60 packets in total,
issued in batches of at most FLASH_MAX_READ_PACKETS (and at least one)
packets per read_flash command, reassembles each reply's 60 payload bytes
at batch base offset plus local offset in a flat buffer, and returns
exactly the first length bytes of that buffer, so the result length always
equals length. -/
theorem c7_read_flash_batching (len off : ℤ) (pl : ℕ → List ℕ)
    (hlen : 0 ≤ len) (hoff : 0 ≤ off) (hoffmax : off ≤ FLASH_MAX_OFFSET)
    (hsum : off + len ≤ FLASH_MAX_BYTES) (hpl : ∀ i, (pl i).length = 60) :
    ((read_flash len off (mkFlashStream pl ((len.toNat + 59) / 60) 0)).1.map
        Prod.snd).sum = (len.toNat + 59) / 60
    ∧ (∀ r ∈ (read_flash len off (mkFlashStream pl ((len.toNat + 59) / 60) 0)).1,
        r.2 ≤ FLASH_MAX_READ_PACKETS ∧ 1 ≤ r.2)
    ∧ (read_flash len off (mkFlashStream pl ((len.toNat + 59) / 60) 0)).2
        = .ok (((List.range ((len.toNat + 59) / 60)).flatMap pl).take len.toNat)
    ∧ (((List.range ((len.toNat + 59) / 60)).flatMap pl).take len.toNat).length
        = len.toNat := by
  have hcheck := check_flash_parameters_ok len off
    (by simp only [FLASH_MAX_OFFSET, FLASH_MAX_BYTES] at hoffmax hsum ⊢; omega)
  have hmain := readFlashBatches_mkFlashStream off pl hpl ((len.toNat + 59) / 60) 0
    (List.replicate ((len.toNat + 59) / 60 * 60) 0)
    (by simp only [List.length_replicate]; omega)
  simp only [Nat.mul_zero, Nat.zero_add] at hmain
  have hrf : read_flash len off (mkFlashStream pl ((len.toNat + 59) / 60) 0)
      = ((readFlashBatches off ((len.toNat + 59) / 60) 0
          (List.replicate ((len.toNat + 59) / 60 * 60) 0)
          (mkFlashStream pl ((len.toNat + 59) / 60) 0)).1,
        ((readFlashBatches off ((len.toNat + 59) / 60) 0
          (List.replicate ((len.toNat + 59) / 60 * 60) 0)
          (mkFlashStream pl ((len.toNat + 59) / 60) 0)).2).map
          (fun buf => buf.take len.toNat)) := by
    unfold read_flash
    rw [hcheck]
  obtain ⟨hsum', hle', B, hok, hBlen, hBpt⟩ := hmain
  rw [hrf]
  have hlen60 : len.toNat ≤ 60 * ((len.toNat + 59) / 60) := by omega
  refine ⟨hsum', ?_, ?_, ?_⟩
  · intro r hr
    have h := hle' r hr
    simp only [FLASH_MAX_READ_PACKETS]
    exact h
  · show ((readFlashBatches off ((len.toNat + 59) / 60) 0
        (List.replicate ((len.toNat + 59) / 60 * 60) 0)
        (mkFlashStream pl ((len.toNat + 59) / 60) 0)).2).map
        (fun buf => buf.take len.toNat) = _
    rw [hok]
    simp only [Except.map]
    congr 1
    apply List.ext_getElem?
    intro i
    rw [getElem?_take_eq_ite, getElem?_take_eq_ite]
    by_cases hi : i < len.toNat
    · rw [if_pos hi, if_pos hi, hBpt i, if_pos ⟨Nat.zero_le i, by omega⟩,
        getElem?_range_flatMap pl hpl _ i (by omega)]
    · rw [if_neg hi, if_neg hi]
  · simp only [List.length_take, length_range_flatMap pl hpl]
    omega

/-- Witness for c7_read_flash_batching: a valid 6030-byte read from offset
zero (101 packets, so two batches of 100 and 1). -/
theorem c7_read_flash_batching_witness :
    ((read_flash 6030 0 (mkFlashStream (fun _ => List.replicate 60 0)
        (((6030 : ℤ).toNat + 59) / 60) 0)).1.map Prod.snd).sum
      = ((6030 : ℤ).toNat + 59) / 60
    ∧ (read_flash 6030 0 (mkFlashStream (fun _ => List.replicate 60 0)
        (((6030 : ℤ).toNat + 59) / 60) 0)).2
      = .ok (((List.range (((6030 : ℤ).toNat + 59) / 60)).flatMap
          (fun _ => List.replicate 60 0)).take (6030 : ℤ).toNat)
    ∧ (((List.range (((6030 : ℤ).toNat + 59) / 60)).flatMap
        (fun _ => List.replicate 60 0)).take (6030 : ℤ).toNat).length
      = (6030 : ℤ).toNat := by
  have h := c7_read_flash_batching 6030 0 (fun _ => List.replicate 60 0)
    (by decide) (by decide) (by decide) (by decide)
    (fun i => by simp)
  exact ⟨h.1, h.2.2.1, h.2.2.2⟩

/-! ### Claim C8: write_flash chunking -/

/-- Chunk layout of a flash write as the spec words it: consecutive chunks
of at most 58 payload bytes, one request per chunk, with the write offset
advancing by exactly the chunk size after every chunk.  This definition
follows the spec's description and is compared against the driver's
writeFlashLoop. -/
def specChunks (data : List ℕ) (off : ℤ) : List (ℤ × List ℕ) :=
  if _h : data = [] then []
  else (off, data.take 58) ::
    specChunks (data.drop 58) (off + (min data.length 58 : ℕ))
  termination_by data.length
  decreasing_by
    simp only [List.length_drop]
    have hp : 0 < data.length := List.length_pos.mpr _h
    omega

theorem take_min_self_left (l : List ℕ) (k : ℕ) : l.take (min l.length k) = l.take k := by
  rcases Nat.le_total l.length k with h | h
  · rw [min_eq_left h, List.take_length, List.take_of_length_le h]
  · rw [min_eq_right h]

theorem writeFlashLoop_eq_specChunks (data : List ℕ) :
    ∀ (m : ℕ), ∀ (r : ℕ) (w : ℤ), r + m = data.length →
      writeFlashLoop data m r w = specChunks (data.drop r) w := by
  intro m
  induction m using Nat.strong_induction_on with
  | _ m ih =>
      intro r w hr
      by_cases hm : m = 0
      · subst hm
        rw [writeFlashLoop, dif_pos rfl, specChunks,
          dif_pos (List.drop_eq_nil_of_le (by omega))]
      · have hdlen : (data.drop r).length = m := by
          simp only [List.length_drop]
          omega
        rw [writeFlashLoop.eq_def, dif_neg hm, specChunks.eq_def,
          dif_neg (by
            intro hnil
            rw [hnil, List.length_nil] at hdlen
            omega)]
        simp only [FLASH_MAX_WRITE_BYTES]
        congr 1
        · congr 1
          rw [← hdlen]
          exact take_min_self_left _ 58
        · rw [ih (m - min m 58) (by omega) (r + min m 58) (w + ((min m 58 : ℕ) : ℤ))
            (by omega)]
          rw [hdlen, List.drop_drop]
          rcases Nat.le_total 58 m with h58 | h58
          · rw [min_eq_right h58]
          · rw [min_eq_left h58,
              List.drop_eq_nil_of_le (show data.length ≤ r + m from by omega),
              List.drop_eq_nil_of_le (show data.length ≤ r + 58 from by omega)]

theorem specChunks_flatten (data : List ℕ) (off : ℤ) :
    ((specChunks data off).map Prod.snd).flatten = data := by
  generalize hlen : data.length = N
  induction N using Nat.strong_induction_on generalizing data off with
  | _ N ih =>
      by_cases hd : data = []
      · subst hd
        rw [specChunks, dif_pos rfl]
        rfl
      · have hpos : 0 < data.length := List.length_pos.mpr hd
        rw [specChunks.eq_def, dif_neg hd]
        simp only [List.map_cons, List.flatten_cons]
        rw [ih (data.drop 58).length
          (by simp only [List.length_drop]; omega) (data.drop 58) _ rfl]
        exact List.take_append_drop 58 data

theorem specChunks_length (data : List ℕ) (off : ℤ) :
    (specChunks data off).length = (data.length + 57) / 58 := by
  generalize hlen : data.length = N
  induction N using Nat.strong_induction_on generalizing data off with
  | _ N ih =>
      by_cases hd : data = []
      · subst hd
        rw [specChunks, dif_pos rfl]
        subst hlen
        rfl
      · have hpos : 0 < data.length := List.length_pos.mpr hd
        rw [specChunks.eq_def, dif_neg hd]
        rw [List.length_cons, ih (data.drop 58).length
          (by simp only [List.length_drop]; omega) (data.drop 58) _ rfl]
        simp only [List.length_drop]
        omega

theorem specChunks_payload_bounds (data : List ℕ) (off : ℤ) :
    ∀ p ∈ specChunks data off, p.2.length ≤ 58 ∧ p.2 ≠ [] := by
  generalize hlen : data.length = N
  induction N using Nat.strong_induction_on generalizing data off with
  | _ N ih =>
      intro p hp
      by_cases hd : data = []
      · rw [specChunks, dif_pos hd] at hp
        cases hp
      · have hpos : 0 < data.length := List.length_pos.mpr hd
        rw [specChunks.eq_def, dif_neg hd] at hp
        rcases List.mem_cons.mp hp with rfl | hp
        · refine ⟨by simp only [List.length_take]; omega, ?_⟩
          simp only [ne_eq, List.take_eq_nil_iff]
          push_neg
          exact ⟨by omega, hd⟩
        · exact ih (data.drop 58).length (by simp only [List.length_drop]; omega)
            (data.drop 58) _ rfl p hp

/-- Claim C8: for every valid (data, offset), write_flash sends the data as
consecutive chunks of at most FLASH_MAX_WRITE_BYTES payload bytes, one
request/reply pair per chunk (each trace entry is one such pair), with the
write offset advancing by exactly the chunk size (the trace equals the
spec's chunk layout); in total ceiling(len/58) pairs occur and the
concatenation of the payloads is exactly the data, each byte sent once and
in order. -/
theorem c8_write_flash_chunking (data : List ℕ) (off : ℤ)
    (hoff : 0 ≤ off) (hoffmax : off ≤ FLASH_MAX_OFFSET)
    (hsum : off + (data.length : ℤ) ≤ FLASH_MAX_BYTES) :
    (write_flash data off).1 = specChunks data off
    ∧ ((write_flash data off).1.map Prod.snd).flatten = data
    ∧ (write_flash data off).1.length = (data.length + 57) / 58
    ∧ (∀ p ∈ (write_flash data off).1,
        p.2.length ≤ FLASH_MAX_WRITE_BYTES ∧ p.2 ≠ [])
    ∧ (write_flash data off).2 = .ok () := by
  have hcheck := check_flash_parameters_ok (data.length : ℤ) off
    (by
      simp only [FLASH_MAX_OFFSET, FLASH_MAX_BYTES] at hoffmax hsum ⊢
      omega)
  have hw : write_flash data off = (writeFlashLoop data data.length 0 off, .ok ()) := by
    unfold write_flash
    rw [hcheck]
  have htrace : writeFlashLoop data data.length 0 off = specChunks data off := by
    rw [writeFlashLoop_eq_specChunks data data.length 0 off (by omega), List.drop_zero]
  rw [hw]
  refine ⟨htrace, ?_, ?_, ?_, rfl⟩
  · rw [show (writeFlashLoop data data.length 0 off, (Except.ok () : Except LRError Unit)).1
      = writeFlashLoop data data.length 0 off from rfl, htrace]
    exact specChunks_flatten data off
  · rw [show (writeFlashLoop data data.length 0 off, (Except.ok () : Except LRError Unit)).1
      = writeFlashLoop data data.length 0 off from rfl, htrace]
    exact specChunks_length data off
  · rw [show (writeFlashLoop data data.length 0 off, (Except.ok () : Except LRError Unit)).1
      = writeFlashLoop data data.length 0 off from rfl, htrace]
    simp only [FLASH_MAX_WRITE_BYTES]
    exact specChunks_payload_bounds data off

/-- Witness for c8_write_flash_chunking: writing 120 bytes at offset 3
(chunks of 58, 58 and 4 bytes). -/
theorem c8_write_flash_chunking_witness :
    (write_flash (List.replicate 120 7) 3).1 = specChunks (List.replicate 120 7) 3
    ∧ ((write_flash (List.replicate 120 7) 3).1.map Prod.snd).flatten
        = List.replicate 120 7
    ∧ (write_flash (List.replicate 120 7) 3).1.length
        = ((List.replicate 120 7).length + 57) / 58
    ∧ (write_flash (List.replicate 120 7) 3).2 = .ok () := by
  have h := c8_write_flash_chunking (List.replicate 120 7) 3 (by decide) (by decide)
    (by simp only [List.length_replicate, FLASH_MAX_BYTES]; decide)
  exact ⟨h.1, h.2.1, h.2.2.1, h.2.2.2.2⟩

/-! ### Claims C9 and C10: grab_one sequencing -/

theorem grabOneLoop_cons (e : ℚ) (s : ℕ) (rest : List ℕ) :
    grabOneLoop e (s :: rest) =
      if s = 1 then
        match grabOneLoop e rest with
        | none => none
        | some tr => some (Event.getStatus :: Event.sleepSeconds (e / 1000) :: tr)
      else some [Event.getStatus] := rfl

theorem grabOneLoop_replicate (e : ℚ) :
    ∀ (k : ℕ) (s : ℕ) (rest : List ℕ), s ≠ 1 →
      grabOneLoop e (List.replicate k 1 ++ s :: rest) =
        some ((List.replicate k
            [Event.getStatus, Event.sleepSeconds (e / 1000)]).flatten
          ++ [Event.getStatus]) := by
  intro k
  induction k with
  | zero =>
      intro s rest hs
      rw [List.replicate_zero, List.nil_append, grabOneLoop_cons, if_neg hs]
      rfl
  | succ k ih =>
      intro s rest hs
      rw [List.replicate_succ, List.cons_append, grabOneLoop_cons, if_pos rfl,
        ih s rest hs]
      rw [List.replicate_succ, List.flatten_cons]
      rfl

theorem count_getStatus_poll_trace (q : ℚ) (k : ℕ) :
    ((List.replicate k [Event.getStatus, Event.sleepSeconds q]).flatten).count
      Event.getStatus = k := by
  induction k with
  | zero => rfl
  | succ k ih =>
      rw [List.replicate_succ, List.flatten_cons, List.count_append, ih]
      have h1 : List.count Event.getStatus
          [Event.getStatus, Event.sleepSeconds q] = 1 := rfl
      omega

/-- Claim C9, amended where the code forces it: grab_one performs, in
order, the optional exposure update, set_parameters, clear_memory and
software_trigger, then polls get_status, sleeping exposure/1000 seconds
after each poll that returns exactly in_progress, until a poll returns a
status different from in_progress alone (a status with additional flags
such as memory_full also ends the wait), and only then calls
get_raw_frame.  For a status sequence of k in_progress replies followed by
a different status, it polls exactly k + 1 times (three times, not twice,
for [in_progress, in_progress, idle]), sleeping k times. -/
theorem c9_grab_one_polling (cached : ℚ) (e : Option ℚ) (k s : ℕ) (rest : List ℕ)
    (hs : s ≠ 1) :
    grab_one cached e (List.replicate k 1 ++ s :: rest)
      = some (Event.setParameters (grabOneExposure cached e) :: Event.clearMemory ::
          Event.softwareTrigger ::
          ((((List.replicate k [Event.getStatus,
              Event.sleepSeconds (grabOneExposure cached e / 1000)]).flatten
            ++ [Event.getStatus]) ++ [Event.getRawFrame])),
        grabOneExposure cached e)
    ∧ (∀ tr p, grab_one cached e (List.replicate k 1 ++ s :: rest) = some (tr, p) →
        tr.count Event.getStatus = k + 1) := by
  have hloop := grabOneLoop_replicate (grabOneExposure cached e) k s rest hs
  have hmain : grab_one cached e (List.replicate k 1 ++ s :: rest)
      = some (Event.setParameters (grabOneExposure cached e) :: Event.clearMemory ::
          Event.softwareTrigger ::
          ((((List.replicate k [Event.getStatus,
              Event.sleepSeconds (grabOneExposure cached e / 1000)]).flatten
            ++ [Event.getStatus]) ++ [Event.getRawFrame])),
        grabOneExposure cached e) := by
    simp only [grab_one]
    rw [hloop]
  refine ⟨hmain, ?_⟩
  intro tr p h
  rw [hmain] at h
  simp only [Option.some.injEq, Prod.mk.injEq] at h
  obtain ⟨h1, _⟩ := h
  subst h1
  simp only [List.count_cons, List.count_append, count_getStatus_poll_trace]
  rfl

/-- Claim C9 as frozen is false on its own test vector: with the status
sequence [in_progress, in_progress, idle] the code calls get_status three
times before reading the frame, not exactly twice (two sleeps separate the
three polls). -/
theorem c9_counterexample :
    (grab_one 10 none [1, 1, 0]).map (fun r => r.1.count Event.getStatus) = some 3
    ∧ (grab_one 10 none [1, 1, 0]).map
        (fun r => r.1.count Event.getStatus) ≠ some 2 := by
  have hloop := grabOneLoop_replicate (10 : ℚ) 2 0 [] (by decide)
  rw [show (List.replicate 2 1 ++ 0 :: [] : List ℕ) = [1, 1, 0] from rfl] at hloop
  have hmain : grab_one 10 none [1, 1, 0]
      = some (Event.setParameters 10 :: Event.clearMemory :: Event.softwareTrigger ::
          ((((List.replicate 2 [Event.getStatus,
              Event.sleepSeconds ((10 : ℚ) / 1000)]).flatten
            ++ [Event.getStatus]) ++ [Event.getRawFrame])), 10) := by
    simp only [grab_one]
    rw [show grabOneExposure 10 none = 10 from rfl, hloop]
  rw [hmain]
  have hcount : (Event.setParameters 10 :: Event.clearMemory :: Event.softwareTrigger ::
      ((((List.replicate 2 [Event.getStatus,
          Event.sleepSeconds ((10 : ℚ) / 1000)]).flatten
        ++ [Event.getStatus]) ++ [Event.getRawFrame]))).count Event.getStatus = 3 := by
    simp only [List.count_cons, List.count_append, count_getStatus_poll_trace]
    rfl
  constructor
  · simp only [Option.map_some']
    rw [hcount]
  · simp only [Option.map_some']
    rw [hcount]
    intro hc
    injection hc with hc'
    cases hc'

/-- Witness for c9_grab_one_polling: two in_progress polls then idle. -/
theorem c9_grab_one_polling_witness :
    grab_one 10 none [1, 1, 0]
      = some (Event.setParameters (grabOneExposure 10 none) :: Event.clearMemory ::
          Event.softwareTrigger ::
          ((((List.replicate 2 [Event.getStatus,
              Event.sleepSeconds (grabOneExposure 10 none / 1000)]).flatten
            ++ [Event.getStatus]) ++ [Event.getRawFrame])),
        grabOneExposure 10 none) := by
  have h := (c9_grab_one_polling 10 none 2 0 [] (by decide)).1
  rw [show (List.replicate 2 1 ++ 0 :: [] : List ℕ) = [1, 1, 0] from rfl] at h
  exact h

/-- Claim C10: a requested exposure of 0 ms (or an omitted one) is falsy in
Python, so grab_one leaves the cached exposure unchanged and
set_parameters pushes the previously cached exposure; only a nonzero
exposure argument overwrites the cache. -/
theorem c10_exposure_zero_ignored (cached v : ℚ) (stream : List ℕ) :
    grabOneExposure cached (some 0) = cached
    ∧ grabOneExposure cached none = cached
    ∧ (v ≠ 0 → grabOneExposure cached (some v) = v)
    ∧ (∀ tr p, grab_one cached (some 0) stream = some (tr, p) →
        p = cached ∧ Event.setParameters cached ∈ tr) := by
  refine ⟨rfl, rfl, ?_, ?_⟩
  · intro hv
    simp only [grabOneExposure, if_neg hv]
  · intro tr p h
    simp only [grab_one] at h
    rw [show grabOneExposure cached (some 0) = cached from rfl] at h
    rcases hl : grabOneLoop cached stream with _ | tr'
    · rw [hl] at h
      cases h
    · rw [hl] at h
      simp only [Option.some.injEq, Prod.mk.injEq] at h
      obtain ⟨h1, h2⟩ := h
      subst h1
      subst h2
      exact ⟨rfl, List.mem_cons_self _ _⟩

/-- Witness for c10_exposure_zero_ignored at concrete values. -/
theorem c10_exposure_zero_ignored_witness :
    grabOneExposure 7 (some 0) = 7
    ∧ grabOneExposure 7 none = 7
    ∧ grabOneExposure 7 (some 5) = 5
    ∧ ((7 : ℚ) = 7 ∧ Event.setParameters 7 ∈
        [Event.setParameters 7, Event.clearMemory, Event.softwareTrigger,
          Event.getStatus, Event.getRawFrame]) := by
  have h := c10_exposure_zero_ignored 7 5 [0]
  refine ⟨h.1, h.2.1, h.2.2.1 (by norm_num), ?_⟩
  exact h.2.2.2 [Event.setParameters 7, Event.clearMemory, Event.softwareTrigger,
    Event.getStatus, Event.getRawFrame] 7 rfl

/-! ### Calibration codec lemmas -/

theorem dropWhile_eq_self_of (p : ℕ → Bool) (l : List ℕ) (h : ∀ b ∈ l, p b = false) :
    l.dropWhile p = l := by
  cases l with
  | nil => rfl
  | cons a l =>
      rw [List.dropWhile_cons, h a (List.mem_cons_self _ _)]
      simp

theorem stripTrailingFF_eq_self (raw : List ℕ) (h : ∀ b ∈ raw, b ≠ 255) :
    stripTrailingFF raw = raw := by
  unfold stripTrailingFF
  rw [dropWhile_eq_self_of _ _ (fun b hb => by
    simp only [decide_eq_false_iff_not]
    exact h b (List.mem_reverse.mp hb))]
  exact List.reverse_reverse raw

theorem mem_intersperse_of (a : List ℕ) :
    ∀ (ls : List (List ℕ)) (x : List ℕ), x ∈ List.intersperse a ls → x = a ∨ x ∈ ls
  | [], x, h => absurd h (List.not_mem_nil x)
  | [b], x, h => by
      rw [List.intersperse_singleton] at h
      exact Or.inr h
  | b :: c :: tl, x, h => by
      rw [List.intersperse_cons_cons] at h
      rcases List.mem_cons.mp h with rfl | h2
      · exact Or.inr (List.mem_cons_self _ _)
      rcases List.mem_cons.mp h2 with rfl | h3
      · exact Or.inl rfl
      · rcases mem_intersperse_of a (c :: tl) x h3 with h4 | h4
        · exact Or.inl h4
        · exact Or.inr (List.mem_cons_of_mem _ h4)

theorem calibrationLines_intercalate (report : List (List ℕ)) (hne : report ≠ [])
    (hgood : ∀ l ∈ report, ∀ b ∈ l, b ≠ 9 ∧ b ≠ 13 ∧ b ≠ 10 ∧ b ≠ 255) :
    calibrationLines (List.intercalate [10] report) = report := by
  have hmem : ∀ b ∈ List.intercalate [10] report, b = 10 ∨ ∃ l ∈ report, b ∈ l := by
    intro b hb
    unfold List.intercalate at hb
    rw [List.mem_flatten] at hb
    obtain ⟨l, hl, hbl⟩ := hb
    rcases mem_intersperse_of [10] report l hl with rfl | h
    · left
      simpa using hbl
    · right
      exact ⟨l, h, hbl⟩
  unfold calibrationLines
  rw [stripTrailingFF_eq_self _ (fun b hb => by
    rcases hmem b hb with rfl | ⟨l, hl, hbl⟩
    · decide
    · exact (hgood l hl b hbl).2.2.2)]
  rw [List.filter_eq_self.mpr (fun b hb => by
    rcases hmem b hb with rfl | ⟨l, hl, hbl⟩
    · decide
    · simp only [decide_eq_true_eq, ne_eq]
      exact ⟨(hgood l hl b hbl).1, (hgood l hl b hbl).2.1⟩)]
  exact List.splitOn_intercalate report 10 (fun l hl h10 => (hgood l hl 10 h10).2.2.1 rfl) hne

theorem pySetSlice_length_eq (l : List (List ℕ)) (a b : ℕ) (xs : List (List ℕ))
    (hab : a ≤ b) (hb : b ≤ l.length) (hxs : xs.length = b - a) :
    (Calibration.pySetSlice l a b xs).length = l.length := by
  simp only [Calibration.pySetSlice, List.length_append, List.length_take, List.length_drop]
  omega

theorem pySetSlice_getElem? (l : List (List ℕ)) (a b : ℕ) (xs : List (List ℕ))
    (hab : a ≤ b) (hb : b ≤ l.length) (p : ℕ) :
    (Calibration.pySetSlice l a b xs)[p]? =
      if p < a then l[p]?
      else if p < a + xs.length then xs[p - a]?
      else l[b + (p - a - xs.length)]? := by
  have hlt : (l.take a).length = a := by
    simp only [List.length_take]
    omega
  have hlt2 : (l.take a ++ xs).length = a + xs.length := by
    simp only [List.length_append, hlt]
  unfold Calibration.pySetSlice
  by_cases h1 : p < a
  · rw [List.getElem?_append_left (by rw [hlt2]; omega),
      List.getElem?_append_left (by rw [hlt]; omega), List.getElem?_take_of_lt h1,
      if_pos h1]
  · by_cases h2 : p < a + xs.length
    · rw [List.getElem?_append_left (by rw [hlt2]; omega),
        List.getElem?_append_right (by rw [hlt]; omega), hlt, if_neg h1, if_pos h2]
    · rw [List.getElem?_append_right (by rw [hlt2]; omega), hlt2, List.getElem?_drop,
        if_neg h1, if_neg h2]
      congr 1
      omega

theorem parseFloats_length (ls : List (List ℕ)) :
    ∀ qs, parseFloats ls = some qs → qs.length = ls.length := by
  induction ls with
  | nil =>
      intro qs h
      rw [parseFloats] at h
      injection h with h'
      rw [← h']
      rfl
  | cons l rest ih =>
      intro qs h
      rw [parseFloats] at h
      rcases h1 : parseFloat l with _ | q
      · rw [h1] at h
        cases h
      · rw [h1] at h
        rcases h2 : parseFloats rest with _ | qs'
        · rw [h2] at h
          cases h
        · rw [h2] at h
          injection h with h'
          rw [← h']
          simp only [List.length_cons, ih qs' h2]

theorem parseFloats_replicate (s : List ℕ) (q : ℚ) (h : parseFloat s = some q) (n : ℕ) :
    parseFloats (List.replicate n s) = some (List.replicate n q) := by
  induction n with
  | zero => rfl
  | succ n ih =>
      rw [List.replicate_succ, List.replicate_succ, parseFloats, h, ih]

theorem parseFloats_head_none (ls : List (List ℕ)) (l : List ℕ)
    (h : ls.head? = some l) (hl : parseFloat l = none) : parseFloats ls = none := by
  cases ls with
  | nil => cases h
  | cons a rest =>
      rw [List.head?_cons] at h
      injection h with h'
      subst h'
      rw [parseFloats, hl]

theorem natDigits_one : natDigits 1 = [49] := by
  rw [natDigits]
  norm_num

theorem parseFloat_nil : parseFloat [] = none := rfl

theorem parseFloat_onePointZero : parseFloat [49, 46, 48] = some 1 := by
  have h : parseFloat [49, 46, 48]
      = some ((1 : ℚ) * ((1 : ℚ) + (0 : ℚ) / (10 : ℚ) ^ (1 : ℕ)) * (10 : ℚ) ^ (0 : ℤ)) := rfl
  rw [h]
  norm_num

theorem parseFloat_oneFix6 : parseFloat [49, 46, 48, 48, 48, 48, 48, 48] = some 1 := by
  have h : parseFloat [49, 46, 48, 48, 48, 48, 48, 48]
      = some ((1 : ℚ) * ((1 : ℚ) + (0 : ℚ) / (10 : ℚ) ^ (6 : ℕ)) * (10 : ℚ) ^ (0 : ℤ)) := rfl
  rw [h]
  norm_num

theorem parseFloat_oneSci6 :
    parseFloat [49, 46, 48, 48, 48, 48, 48, 48, 101, 43, 48, 48] = some 1 := by
  have h : parseFloat [49, 46, 48, 48, 48, 48, 48, 48, 101, 43, 48, 48]
      = some ((1 : ℚ) * ((1 : ℚ) + (0 : ℚ) / (10 : ℚ) ^ (6 : ℕ))
          * (10 : ℚ) ^ ((0 : ℕ) : ℤ)) := rfl
  rw [h]
  norm_num

theorem parseInt_one : parseInt [49] = some 1 := rfl

theorem fmtInt_one : fmtInt 1 = [49] := by
  have h : fmtInt 1 = natDigits 1 := rfl
  rw [h, natDigits_one]

theorem fmtStr_one : fmtStr (1 : ℚ) = [49, 46, 48] := by
  have h : fmtStr (1 : ℚ) = natDigits 1 ++ [46, 48] := rfl
  rw [h, natDigits_one]
  rfl

theorem fmtFix6_one : fmtFix6 (1 : ℚ) = [49, 46, 48, 48, 48, 48, 48, 48] := by
  have hfl : (⌊|(1 : ℚ)| * (10 : ℚ) ^ (6 : ℕ) + 1 / 2⌋ : ℤ) = 1000000 := by norm_num
  have h : fmtFix6 (1 : ℚ)
      = (cond (decide ((1 : ℚ) < 0)) [45] [])
        ++ fmtFixedNat 6 (⌊|(1 : ℚ)| * (10 : ℚ) ^ (6 : ℕ) + 1 / 2⌋ : ℤ).toNat := rfl
  rw [h, hfl]
  have hneg : (decide ((1 : ℚ) < 0)) = false := by norm_num
  rw [hneg]
  show fmtFixedNat 6 1000000 = _
  simp [fmtFixedNat, natDigits]

theorem fmtSci6_one :
    fmtSci6 (1 : ℚ) = [49, 46, 48, 48, 48, 48, 48, 48, 101, 43, 48, 48] := by
  have h : fmtSci6 (1 : ℚ) = fmtFix6 (1 : ℚ) ++ [101, 43, 48, 48] := rfl
  rw [h, fmtFix6_one]
  rfl

/-- Claim C6: a raw calibration buffer that does not decode to exactly
10975 lines (after stripping trailing 0xFF filler and removing tabs and
carriage returns) makes from_bytes fail with the format error, and during
the calibration load at device open that failure is caught: the session's
calibration is none and open completes without raising. -/
theorem c6_line_count_guard (raw : List ℕ)
    (h : (calibrationLines raw).length ≠ 10975) :
    Calibration.from_bytes raw = .error .formatError
    ∧ get_calibration_at_open (.ok raw) = none := by
  have h1 : Calibration.from_bytes raw = .error .formatError := by
    unfold Calibration.from_bytes
    rw [if_pos (by simp only [CALIBRATION_LINES]; exact h)]
  refine ⟨h1, ?_⟩
  show (match Calibration.from_bytes raw with
    | .ok c => some c
    | .error _ => none) = none
  rw [h1]

/-- Witness for c6_line_count_guard: the empty flash image decodes to a
single line. -/
theorem c6_line_count_guard_witness :
    Calibration.from_bytes [] = .error .formatError
    ∧ get_calibration_at_open (.ok []) = none :=
  c6_line_count_guard [] (by decide)

/-- Claim C5: on a well-formed 10975-line calibration text, from_bytes
takes the header from line 0, irr_scaler from line 1, irr_wave from line 2,
the 3653-element wavelength array from lines [12,3665), the 3652-element
PRNU array from lines [3666,7318) extended with exactly two sentinel 1.0
values to 3654 elements, and the 3654-element irradiance array from lines
[7320,10974); the public accessors drop the last 5, 6 and 6 elements
respectively, each yielding 3648 elements. -/
theorem c5_calibration_layout (raw : List ℕ) (m t s : List ℕ)
    (restHeader : List (List ℕ)) (serial : ℤ) (scaler wave : ℚ)
    (wl prnu irr : List ℚ)
    (hlen : (calibrationLines raw).length = 10975)
    (hheader : splitWs ((calibrationLines raw).getD 0 []) = m :: t :: s :: restHeader)
    (hserial : parseInt s = some serial)
    (hscaler : parseFloat ((calibrationLines raw).getD 1 []) = some scaler)
    (hwave : parseFloat ((calibrationLines raw).getD 2 []) = some wave)
    (hwl : parseFloats (((calibrationLines raw).take 3665).drop 12) = some wl)
    (hprnu : parseFloats (((calibrationLines raw).take 7318).drop 3666) = some prnu)
    (hirr : parseFloats (((calibrationLines raw).take 10974).drop 7320) = some irr) :
    Calibration.from_bytes raw
      = .ok ⟨m, t, serial, scaler, wave, wl, prnu ++ [1, 1], irr⟩
    ∧ wl.length = 3653 ∧ prnu.length = 3652 ∧ (prnu ++ [1, 1]).length = 3654
    ∧ irr.length = 3654
    ∧ Calibration.wavelengths ⟨m, t, serial, scaler, wave, wl, prnu ++ [1, 1], irr⟩
        = wl.take 3648
    ∧ Calibration.prnu_norm ⟨m, t, serial, scaler, wave, wl, prnu ++ [1, 1], irr⟩
        = (prnu ++ [1, 1]).take 3648
    ∧ Calibration.irr_norm ⟨m, t, serial, scaler, wave, wl, prnu ++ [1, 1], irr⟩
        = irr.take 3648
    ∧ (Calibration.wavelengths ⟨m, t, serial, scaler, wave, wl, prnu ++ [1, 1],
        irr⟩).length = 3648
    ∧ (Calibration.prnu_norm ⟨m, t, serial, scaler, wave, wl, prnu ++ [1, 1],
        irr⟩).length = 3648
    ∧ (Calibration.irr_norm ⟨m, t, serial, scaler, wave, wl, prnu ++ [1, 1],
        irr⟩).length = 3648 := by
  have hwl_len : wl.length = 3653 := by
    rw [parseFloats_length _ wl hwl]
    simp only [List.length_drop, List.length_take, hlen]
    omega
  have hprnu_len : prnu.length = 3652 := by
    rw [parseFloats_length _ prnu hprnu]
    simp only [List.length_drop, List.length_take, hlen]
    omega
  have hirr_len : irr.length = 3654 := by
    rw [parseFloats_length _ irr hirr]
    simp only [List.length_drop, List.length_take, hlen]
    omega
  have hprnu2_len : (prnu ++ [1, 1] : List ℚ).length = 3654 := by
    simp only [List.length_append, hprnu_len, List.length_cons, List.length_nil]
  have hmain : Calibration.from_bytes raw
      = .ok ⟨m, t, serial, scaler, wave, wl, prnu ++ [1, 1], irr⟩ := by
    simp only [Calibration.from_bytes]
    rw [hheader]
    rw [if_neg (by simp only [CALIBRATION_LINES]; rw [hlen]; decide)]
    rw [if_neg (by simp only [List.length_cons]; omega)]
    rw [show ((m :: t :: s :: restHeader).getD 2 []) = s from rfl]
    rw [hserial, hscaler, hwave, hwl, hprnu, hirr]
    rfl
  refine ⟨hmain, hwl_len, hprnu_len, hprnu2_len, hirr_len, ?_, ?_, ?_, ?_, ?_, ?_⟩
  · show wl.take (wl.length - 5) = wl.take 3648
    rw [hwl_len]
  · show (prnu ++ [1, 1] : List ℚ).take ((prnu ++ [1, 1] : List ℚ).length - 6)
      = (prnu ++ [1, 1] : List ℚ).take 3648
    rw [hprnu2_len]
  · show irr.take (irr.length - 6) = irr.take 3648
    rw [hirr_len]
  · show (wl.take (wl.length - 5)).length = 3648
    simp only [List.length_take, hwl_len]
    omega
  · show ((prnu ++ [1, 1] : List ℚ).take
      ((prnu ++ [1, 1] : List ℚ).length - 6)).length = 3648
    simp only [List.length_take, hprnu2_len]
    omega
  · show (irr.take (irr.length - 6)).length = 3648
    simp only [List.length_take, hirr_len]
    omega

theorem witnessLines_slice (a b : ℕ) (ha : 1 ≤ a) :
    ((((List.replicate 10975 ([49, 46, 48] : List ℕ)).set 0
        [76, 82, 49, 32, 89, 32, 49]).take b).drop a)
      = List.replicate (min b 10975 - a) [49, 46, 48] := by
  apply List.ext_getElem?
  intro i
  rw [List.getElem?_drop, getElem?_take_eq_ite, List.getElem?_replicate]
  by_cases h1 : a + i < b
  · rw [if_pos h1, List.getElem?_set_ne (by omega), List.getElem?_replicate]
    by_cases h2 : a + i < 10975
    · rw [if_pos h2, if_pos (by omega)]
    · rw [if_neg h2, if_neg (by omega)]
  · rw [if_neg h1, if_neg (by omega)]

/-- Witness for c5_calibration_layout: a synthetic 10975-line calibration
text whose header line reads LR1 Y 1 and whose other lines all read 1.0. -/
theorem c5_calibration_layout_witness :
    Calibration.from_bytes (List.intercalate [10]
        ((List.replicate 10975 ([49, 46, 48] : List ℕ)).set 0
          [76, 82, 49, 32, 89, 32, 49]))
      = .ok ⟨[76, 82, 49], [89], 1, 1, 1, List.replicate 3653 1,
          List.replicate 3652 1 ++ [1, 1], List.replicate 3654 1⟩
    ∧ (Calibration.wavelengths ⟨[76, 82, 49], [89], 1, 1, 1, List.replicate 3653 1,
        List.replicate 3652 1 ++ [1, 1], List.replicate 3654 1⟩).length = 3648
    ∧ (Calibration.prnu_norm ⟨[76, 82, 49], [89], 1, 1, 1, List.replicate 3653 1,
        List.replicate 3652 1 ++ [1, 1], List.replicate 3654 1⟩).length = 3648
    ∧ (Calibration.irr_norm ⟨[76, 82, 49], [89], 1, 1, 1, List.replicate 3653 1,
        List.replicate 3652 1 ++ [1, 1], List.replicate 3654 1⟩).length = 3648 := by
  have hpass : calibrationLines (List.intercalate [10]
      ((List.replicate 10975 ([49, 46, 48] : List ℕ)).set 0
        [76, 82, 49, 32, 89, 32, 49]))
      = (List.replicate 10975 ([49, 46, 48] : List ℕ)).set 0
        [76, 82, 49, 32, 89, 32, 49] := by
    apply calibrationLines_intercalate
    · intro hc
      have hlen := congrArg List.length hc
      rw [List.length_set, List.length_replicate, List.length_nil] at hlen
      exact absurd hlen (by norm_num)
    · intro l hl
      rcases List.mem_or_eq_of_mem_set hl with hmem | rfl
      · rw [List.eq_of_mem_replicate hmem]
        decide
      · decide
  have h0 : ((List.replicate 10975 ([49, 46, 48] : List ℕ)).set 0
      [76, 82, 49, 32, 89, 32, 49]).getD 0 [] = [76, 82, 49, 32, 89, 32, 49] := by
    rw [List.getD_eq_getElem?_getD,
      List.getElem?_set_self (by rw [List.length_replicate]; norm_num)]
    rfl
  have h1 : ((List.replicate 10975 ([49, 46, 48] : List ℕ)).set 0
      [76, 82, 49, 32, 89, 32, 49]).getD 1 [] = [49, 46, 48] := by
    rw [List.getD_eq_getElem?_getD, List.getElem?_set_ne (by decide),
      List.getElem?_replicate]
    rfl
  have h2 : ((List.replicate 10975 ([49, 46, 48] : List ℕ)).set 0
      [76, 82, 49, 32, 89, 32, 49]).getD 2 [] = [49, 46, 48] := by
    rw [List.getD_eq_getElem?_getD, List.getElem?_set_ne (by decide),
      List.getElem?_replicate]
    rfl
  have h := c5_calibration_layout _ [76, 82, 49] [89] [49] [] 1 1 1
    (List.replicate 3653 1) (List.replicate 3652 1) (List.replicate 3654 1)
    (by rw [hpass, List.length_set, List.length_replicate])
    (by rw [hpass, h0]; rfl)
    parseInt_one
    (by rw [hpass, h1]; exact parseFloat_onePointZero)
    (by rw [hpass, h2]; exact parseFloat_onePointZero)
    (by
      rw [hpass, witnessLines_slice 12 3665 (by norm_num),
        show min 3665 10975 - 12 = 3653 from by norm_num]
      exact parseFloats_replicate _ 1 parseFloat_onePointZero 3653)
    (by
      rw [hpass, witnessLines_slice 3666 7318 (by norm_num),
        show min 7318 10975 - 3666 = 3652 from by norm_num]
      exact parseFloats_replicate _ 1 parseFloat_onePointZero 3652)
    (by
      rw [hpass, witnessLines_slice 7320 10974 (by norm_num),
        show min 10974 10975 - 7320 = 3654 from by norm_num]
      exact parseFloats_replicate _ 1 parseFloat_onePointZero 3654)
  exact ⟨h.1, h.2.2.2.2.2.2.2.2.1, h.2.2.2.2.2.2.2.2.2.1, h.2.2.2.2.2.2.2.2.2.2⟩

/-! ### Claim C1: the serialize/parse round trip -/

/-- A well-formed calibration with the documented array lengths: model LR1,
type Y, serial 1, unit scalers, all-ones arrays. -/
def sampleCalibration : Calibration :=
  ⟨[76, 82, 49], [89], 1, 1, 1, List.replicate 3653 1, List.replicate 3654 1,
    List.replicate 3654 1⟩

/-- Line list built by to_bytes for sampleCalibration, before joining. -/
def sampleBase : List (List ℕ) :=
  (((List.replicate 10975 ([] : List ℕ)).set 0
    [76, 82, 49, 32, 89, 32, 49]).set 1
    [49, 46, 48, 48, 48, 48, 48, 48, 101, 43, 48, 48]).set 2
    [49, 46, 48, 48, 48, 48, 48, 48]

def sampleR4 : List (List ℕ) :=
  Calibration.pySetSlice sampleBase 12 3665 (List.replicate 3653 [49, 46, 48])

def sampleR5 : List (List ℕ) :=
  Calibration.pySetSlice sampleR4 3666 7320 (List.replicate 3654 [49, 46, 48])

def sampleReport : List (List ℕ) :=
  Calibration.pySetSlice sampleR5 7321 10975 (List.replicate 3654 [49, 46, 48])

theorem sampleBase_length : sampleBase.length = 10975 := by
  simp only [sampleBase, List.length_set, List.length_replicate]

theorem sampleR4_length : sampleR4.length = 10975 := by
  unfold sampleR4
  rw [pySetSlice_length_eq _ _ _ _ (by norm_num)
    (by rw [sampleBase_length]; norm_num) (by simp only [List.length_replicate])]
  exact sampleBase_length

theorem sampleR5_length : sampleR5.length = 10975 := by
  unfold sampleR5
  rw [pySetSlice_length_eq _ _ _ _ (by norm_num)
    (by rw [sampleR4_length]; norm_num) (by simp only [List.length_replicate])]
  exact sampleR4_length

theorem sampleReport_length : sampleReport.length = 10975 := by
  unfold sampleReport
  rw [pySetSlice_length_eq _ _ _ _ (by norm_num)
    (by rw [sampleR5_length]) (by simp only [List.length_replicate])]
  exact sampleR5_length

theorem sampleBase_getElem? (p : ℕ) :
    sampleBase[p]? =
      if p = 0 then some [76, 82, 49, 32, 89, 32, 49]
      else if p = 1 then some [49, 46, 48, 48, 48, 48, 48, 48, 101, 43, 48, 48]
      else if p = 2 then some [49, 46, 48, 48, 48, 48, 48, 48]
      else if p < 10975 then some [] else none := by
  unfold sampleBase
  match p with
  | 0 =>
      rw [List.getElem?_set_ne (by decide), List.getElem?_set_ne (by decide),
        List.getElem?_set_self (by rw [List.length_replicate]; norm_num)]
      norm_num
  | 1 =>
      rw [List.getElem?_set_ne (by decide),
        List.getElem?_set_self (by rw [List.length_set, List.length_replicate]; norm_num)]
      norm_num
  | 2 =>
      rw [List.getElem?_set_self
        (by rw [List.length_set, List.length_set, List.length_replicate]; norm_num)]
      norm_num
  | (n + 3) =>
      rw [List.getElem?_set_ne (by omega), List.getElem?_set_ne (by omega),
        List.getElem?_set_ne (by omega), List.getElem?_replicate,
        if_neg (show ¬(n + 3 = 0) from by omega),
        if_neg (show ¬(n + 3 = 1) from by omega),
        if_neg (show ¬(n + 3 = 2) from by omega)]

theorem sampleR4_getElem? (p : ℕ) :
    sampleR4[p]? =
      if 12 ≤ p ∧ p < 3665 then some [49, 46, 48] else sampleBase[p]? := by
  unfold sampleR4
  rw [pySetSlice_getElem? _ _ _ _ (by norm_num) (by rw [sampleBase_length]; norm_num) p]
  simp only [List.length_replicate, List.getElem?_replicate]
  by_cases h1 : p < 12
  · rw [if_pos h1, if_neg (show ¬(12 ≤ p ∧ p < 3665) from by omega)]
  · by_cases h2 : p < 12 + 3653
    · rw [if_neg h1, if_pos h2, if_pos (show p - 12 < 3653 from by omega),
        if_pos (show 12 ≤ p ∧ p < 3665 from by omega)]
    · rw [if_neg h1, if_neg h2, if_neg (show ¬(12 ≤ p ∧ p < 3665) from by omega),
        show 3665 + (p - 12 - 3653) = p from by omega]

theorem sampleR5_getElem? (p : ℕ) :
    sampleR5[p]? =
      if 3666 ≤ p ∧ p < 7320 then some [49, 46, 48] else sampleR4[p]? := by
  unfold sampleR5
  rw [pySetSlice_getElem? _ _ _ _ (by norm_num) (by rw [sampleR4_length]; norm_num) p]
  simp only [List.length_replicate, List.getElem?_replicate]
  by_cases h1 : p < 3666
  · rw [if_pos h1, if_neg (show ¬(3666 ≤ p ∧ p < 7320) from by omega)]
  · by_cases h2 : p < 3666 + 3654
    · rw [if_neg h1, if_pos h2, if_pos (show p - 3666 < 3654 from by omega),
        if_pos (show 3666 ≤ p ∧ p < 7320 from by omega)]
    · rw [if_neg h1, if_neg h2, if_neg (show ¬(3666 ≤ p ∧ p < 7320) from by omega),
        show 7320 + (p - 3666 - 3654) = p from by omega]

theorem sampleReport_getElem? (p : ℕ) :
    sampleReport[p]? =
      if 7321 ≤ p ∧ p < 10975 then some [49, 46, 48] else sampleR5[p]? := by
  unfold sampleReport
  rw [pySetSlice_getElem? _ _ _ _ (by norm_num) (by rw [sampleR5_length]) p]
  simp only [List.length_replicate, List.getElem?_replicate]
  by_cases h1 : p < 7321
  · rw [if_pos h1, if_neg (show ¬(7321 ≤ p ∧ p < 10975) from by omega)]
  · by_cases h2 : p < 7321 + 3654
    · rw [if_neg h1, if_pos h2, if_pos (show p - 7321 < 3654 from by omega),
        if_pos (show 7321 ≤ p ∧ p < 10975 from by omega)]
    · rw [if_neg h1, if_neg h2, if_neg (show ¬(7321 ≤ p ∧ p < 10975) from by omega),
        show 10975 + (p - 7321 - 3654) = p from by omega]

theorem to_bytes_sample :
    Calibration.to_bytes sampleCalibration = List.intercalate [10] sampleReport := by
  simp only [Calibration.to_bytes, sampleCalibration, CALIBRATION_LINES,
    List.map_replicate, fmtStr_one, fmtSci6_one, fmtFix6_one, fmtInt_one]
  unfold sampleReport sampleR5 sampleR4 sampleBase
  rfl

theorem sampleReport_at0 : sampleReport[(0 : ℕ)]? = some [76, 82, 49, 32, 89, 32, 49] := by
  rw [sampleReport_getElem?, if_neg (by norm_num), sampleR5_getElem?,
    if_neg (by norm_num), sampleR4_getElem?, if_neg (by norm_num), sampleBase_getElem?]
  norm_num

theorem sampleReport_at1 :
    sampleReport[(1 : ℕ)]? = some [49, 46, 48, 48, 48, 48, 48, 48, 101, 43, 48, 48] := by
  rw [sampleReport_getElem?, if_neg (by norm_num), sampleR5_getElem?,
    if_neg (by norm_num), sampleR4_getElem?, if_neg (by norm_num), sampleBase_getElem?]
  norm_num

theorem sampleReport_at2 :
    sampleReport[(2 : ℕ)]? = some [49, 46, 48, 48, 48, 48, 48, 48] := by
  rw [sampleReport_getElem?, if_neg (by norm_num), sampleR5_getElem?,
    if_neg (by norm_num), sampleR4_getElem?, if_neg (by norm_num), sampleBase_getElem?]
  norm_num

theorem sampleReport_at7320 : sampleReport[(7320 : ℕ)]? = some [] := by
  rw [sampleReport_getElem?, if_neg (by norm_num), sampleR5_getElem?,
    if_neg (by norm_num), sampleR4_getElem?, if_neg (by norm_num), sampleBase_getElem?]
  norm_num

theorem sampleReport_wl_slice :
    (sampleReport.take 3665).drop 12 = List.replicate 3653 [49, 46, 48] := by
  apply List.ext_getElem?
  intro i
  rw [List.getElem?_drop, getElem?_take_eq_ite, List.getElem?_replicate]
  by_cases h1 : 12 + i < 3665
  · rw [if_pos h1, sampleReport_getElem?, if_neg (by omega), sampleR5_getElem?,
      if_neg (by omega), sampleR4_getElem?, if_pos (by omega), if_pos (by omega)]
  · rw [if_neg h1, if_neg (by omega)]

theorem sampleReport_prnu_slice :
    (sampleReport.take 7318).drop 3666 = List.replicate 3652 [49, 46, 48] := by
  apply List.ext_getElem?
  intro i
  rw [List.getElem?_drop, getElem?_take_eq_ite, List.getElem?_replicate]
  by_cases h1 : 3666 + i < 7318
  · rw [if_pos h1, sampleReport_getElem?, if_neg (by omega), sampleR5_getElem?,
      if_pos (by omega), if_pos (by omega)]
  · rw [if_neg h1, if_neg (by omega)]

theorem sampleReport_irr_head :
    ((sampleReport.take 10974).drop 7320).head? = some [] := by
  rw [List.head?_eq_getElem?, List.getElem?_drop, Nat.add_zero,
    getElem?_take_eq_ite, if_pos (by norm_num)]
  exact sampleReport_at7320

theorem sampleReport_lines :
    calibrationLines (Calibration.to_bytes sampleCalibration) = sampleReport := by
  rw [to_bytes_sample]
  apply calibrationLines_intercalate
  · intro hc
    have hlen := congrArg List.length hc
    rw [sampleReport_length, List.length_nil] at hlen
    exact absurd hlen (by norm_num)
  · intro l hl
    obtain ⟨i, hi⟩ := List.mem_iff_getElem?.mp hl
    rw [sampleReport_getElem?] at hi
    by_cases c1 : 7321 ≤ i ∧ i < 10975
    · rw [if_pos c1] at hi
      injection hi with hi'
      rw [← hi']
      decide
    · rw [if_neg c1, sampleR5_getElem?] at hi
      by_cases c2 : 3666 ≤ i ∧ i < 7320
      · rw [if_pos c2] at hi
        injection hi with hi'
        rw [← hi']
        decide
      · rw [if_neg c2, sampleR4_getElem?] at hi
        by_cases c3 : 12 ≤ i ∧ i < 3665
        · rw [if_pos c3] at hi
          injection hi with hi'
          rw [← hi']
          decide
        · rw [if_neg c3, sampleBase_getElem?] at hi
          by_cases c4 : i = 0
          · rw [if_pos c4] at hi
            injection hi with hi'
            rw [← hi']
            decide
          · rw [if_neg c4] at hi
            by_cases c5 : i = 1
            · rw [if_pos c5] at hi
              injection hi with hi'
              rw [← hi']
              decide
            · rw [if_neg c5] at hi
              by_cases c6 : i = 2
              · rw [if_pos c6] at hi
                injection hi with hi'
                rw [← hi']
                decide
              · rw [if_neg c6] at hi
                by_cases c7 : i < 10975
                · rw [if_pos c7] at hi
                  injection hi with hi'
                  rw [← hi']
                  decide
                · rw [if_neg c7] at hi
                  cases hi

/-- Claim C1 fails on the code: serializing a well-formed calibration and
parsing it back raises instead of succeeding, because to_bytes writes the
irradiance array at lines [7321, 10975) while from_bytes reads lines
[7320, 10974), so the parse hits the empty line 7320 and float conversion
fails (ValueError in the source).  This theorem evaluates the code at the
concrete failing input sampleCalibration. -/
theorem c1_roundtrip_fails :
    Calibration.from_bytes (Calibration.to_bytes sampleCalibration)
      = .error .valueError
    ∧ ∀ c, Calibration.from_bytes (Calibration.to_bytes sampleCalibration)
        ≠ .ok c := by
  have hmain : Calibration.from_bytes (Calibration.to_bytes sampleCalibration)
      = .error .valueError := by
    simp only [Calibration.from_bytes]
    rw [sampleReport_lines]
    rw [if_neg (by simp only [CALIBRATION_LINES]; rw [sampleReport_length]; decide)]
    rw [show sampleReport.getD 0 [] = [76, 82, 49, 32, 89, 32, 49] from by
      rw [List.getD_eq_getElem?_getD, sampleReport_at0]; rfl]
    rw [show splitWs [76, 82, 49, 32, 89, 32, 49] = [[76, 82, 49], [89], [49]] from rfl]
    rw [if_neg (by norm_num)]
    rw [show (([[76, 82, 49], [89], [49]] : List (List ℕ)).getD 2 []) = [49] from rfl]
    rw [parseInt_one]
    rw [show sampleReport.getD 1 []
        = [49, 46, 48, 48, 48, 48, 48, 48, 101, 43, 48, 48] from by
      rw [List.getD_eq_getElem?_getD, sampleReport_at1]; rfl]
    rw [parseFloat_oneSci6]
    rw [show sampleReport.getD 2 [] = [49, 46, 48, 48, 48, 48, 48, 48] from by
      rw [List.getD_eq_getElem?_getD, sampleReport_at2]; rfl]
    rw [parseFloat_oneFix6]
    rw [sampleReport_wl_slice, parseFloats_replicate _ 1 parseFloat_onePointZero 3653]
    rw [sampleReport_prnu_slice, parseFloats_replicate _ 1 parseFloat_onePointZero 3652]
    rw [parseFloats_head_none _ [] sampleReport_irr_head parseFloat_nil]
  refine ⟨hmain, ?_⟩
  intro c hc
  rw [hmain] at hc
  cases hc

end Aseq
